import Mathlib

/-! # lhotse-agent: the request matcher, the loader and the snapshot store

A shallow embedding of `Match`, `checkMatch`, `Maps.LoadServiceData`, `Load`
and `CowMaps` from `cmd/proxy/data/config.go`, over the configuration types of
`cmd/config/config.go`, together with the properties of the matcher and of the
loader that the specification states.

Conventions of the embedding:

* a Go `map[string]V` that the code writes to is a `GoMap V`: `none` for the
  nil map, otherwise its list of key/value pairs; a map that is only ranged
  over (the three maps of a clause) is the list of its pairs, a nil map being
  the empty list. A `range` loop visits the pairs in list order, so a statement
  about "every iteration order" quantifies over the permutations of the list;
* a Go pointer that may be nil is an `Option`, and a dereference of `none` is
  a panic: `Outcome.nilDeref` in `Match`, the result `none` in the loader;
* a Go `error` is its message, `Option String` standing for a possibly-nil
  error;
* functions whose code is outside the two source files are parameters: the
  Go standard library functions are the fields of `Lib`, the `Select` methods
  of the balancers of package `config` the fields of `Balancers`.
-/

namespace Lhotse

/-! ## Go maps -/

/-- A Go `map[string]V`: `none` is the nil map, otherwise the entries of the
map, in the order in which a `range` loop visits them. -/
abbrev GoMap (V : Type) := Option (List (String × V))

instance instDecidableEqGoMap {V : Type} [DecidableEq V] : DecidableEq (GoMap V) :=
  inferInstanceAs (DecidableEq (Option (List (String × V))))

instance instReprGoMap {V : Type} [Repr V] : Repr (GoMap V) :=
  inferInstanceAs (Repr (Option (List (String × V))))

/-- The read `v, ok := m[k]`: `none` when the key is absent, as it always is in
a nil map. -/
def GoMap.lookup {V : Type} (m : GoMap V) (k : String) : Option V :=
  (m.getD []).lookup k

/-- The entries that a `range` loop over the map visits: none for a nil map. -/
def GoMap.entries {V : Type} (m : GoMap V) : List (String × V) :=
  m.getD []

/-- The assignment `m[k] = v` on the entries of a map that is not nil: the
entry of key `k` is replaced where it stands, or added. -/
def mapSet {V : Type} : List (String × V) → String → V → List (String × V)
  | [], k, v => [(k, v)]
  | (k', v') :: rest, k, v =>
    if k' == k then (k, v) :: rest else (k', v') :: mapSet rest k v

/-- The assignment `m[k] = v`: the map afterwards, `none` when the map is nil
(the assignment to an entry of a nil map panics). -/
def GoMap.set {V : Type} (m : GoMap V) (k : String) (v : V) : Option (GoMap V) :=
  match m with
  | none => none
  | some entries => some (some (mapSet entries k v))

/-! ## Configuration types (`cmd/config/config.go`) -/

/-- The Go struct `Endpoint`. -/
structure Endpoint where
  Ip : String := ""
  Port : String := ""
deriving DecidableEq, Repr

/-- The Go type `SimpleLB`, a string. -/
abbrev SimpleLB := String

/-- The Go variable `ROUND_ROBIN`: declared `var ROUND_ROBIN SimpleLB` with no
initial value, hence the zero value of a string. -/
def ROUND_ROBIN : SimpleLB := ""

/-- The Go variable `LEAST_CONN`, declared with no initial value. -/
def LEAST_CONN : SimpleLB := ""

/-- The Go variable `RANDOM`, declared with no initial value. -/
def RANDOM : SimpleLB := ""

/-- The Go variable `PASSTHROUGH`, declared with no initial value. -/
def PASSTHROUGH : SimpleLB := ""

/-- The Go struct `ConsistentHashLB`. -/
structure ConsistentHashLB where
  HttpHeaderName : String := ""
  UseSourceIp : Bool := false
  HttpQueryParameterName : String := ""
  MinimumRingSize : Int := 0
deriving DecidableEq, Repr

/-- Modelled from the spec: the interface `config.LoadBalancer` and its
implementations are not in the source files; `LoadServiceData` constructs the
four values below (`LastConnLoadBalancer` with its field `Last`). What `Select`
returns on them is the field `Balancers.Select`. -/
inductive LoadBalancer where
  | RoundRobinLoadBalancer
  | RandomLoadBalancer
  | LastConnLoadBalancer (Last : Int)
  | PassThroughLoadBalancer
deriving DecidableEq, Repr

/-- The Go struct `LoadBalancerSettings`. Modelled from the spec: the field
`LoadBalancer` (the cluster's endpoint balancer, a pointer that `Match` tests
against nil) is read by `config.go` of package `data` but is missing from the
declaration in the source files. -/
structure LoadBalancerSettings where
  Simple : SimpleLB := ""
  ConsistentHash : ConsistentHashLB := {}
  LoadBalancer : Option LoadBalancer := none
deriving DecidableEq, Repr

/-- The Go struct `TrafficPolicy`. -/
structure TrafficPolicy where
  LoadBalancer : LoadBalancerSettings := {}
deriving DecidableEq, Repr

/-- The Go struct `Cluster`. `Endpoints` is a list of pointers: an element may
be nil. -/
structure Cluster where
  Name : String := ""
  Endpoints : List (Option Endpoint) := []
  TrafficPolicy : TrafficPolicy := {}
deriving DecidableEq, Repr

/-- The Go struct `StringMatch`. -/
structure StringMatch where
  Exact : String := ""
  Prefix : String := ""
  Regex : String := ""
deriving DecidableEq, Repr

/-- Modelled from the spec: the method `StringMatch.Empty` is called by
`checkMatch` but is not in the source files; by the spec a `StringMatch` is
"not specified" when all three fields are empty. -/
def StringMatch.Empty (stringMatch : StringMatch) : Bool :=
  stringMatch.Exact == "" && stringMatch.Prefix == "" && stringMatch.Regex == ""

/-- The Go struct `HttpMatchRequest`. The three maps are lists of entries in
the order in which a `range` loop visits them. -/
structure HttpMatchRequest where
  Name : String := ""
  Uri : StringMatch := {}
  Scheme : StringMatch := {}
  Method : StringMatch := {}
  Authority : StringMatch := {}
  Headers : List (String × StringMatch) := []
  Port : Int := 0
  SourceLabels : List (String × String) := []
  QueryParams : List (String × StringMatch) := []
  IgnoreUriCase : Bool := false
  WithoutHeaders : List (String × StringMatch) := []
deriving DecidableEq, Repr

/-- The Go struct `Destination`. -/
structure Destination where
  Cluster : String := ""
deriving DecidableEq, Repr

/-- The Go struct `HttpRouteDestination`. -/
structure HttpRouteDestination where
  Destination : Destination := {}
  Weight : Int := 0
deriving DecidableEq, Repr

/-- The Go struct `HttpRedirect`. -/
structure HttpRedirect where
  Uri : String := ""
  Authority : String := ""
  Port : Int := 0
  Scheme : String := ""
  RedirectCode : String := ""
deriving DecidableEq, Repr

/-- The Go struct `HttpRewrite`. -/
structure HttpRewrite where
  Uri : String := ""
  Authority : String := ""
deriving DecidableEq, Repr

/-- Modelled from the spec: the route balancer `config.WeightRoundRobinBalancer`
is not in the source files. `LoadServiceData` creates it empty and calls
`Add(cluster, weight)` on it; the value records those calls in order. What
`Select` returns on it is the field `Balancers.SelectCluster`. -/
structure WeightRoundRobinBalancer where
  added : List (String × String) := []
deriving DecidableEq, Repr

/-- The Go struct `HttpRoute`. Modelled from the spec: `Match` is a list of
clauses and `LoadBalancer` the route balancer (a pointer tested against nil),
as `config.go` of package `data` uses them; the declaration in the source files
has a single clause and no balancer. -/
structure HttpRoute where
  Name : String := ""
  Match : List HttpMatchRequest := []
  Route : List HttpRouteDestination := []
  Redirect : HttpRedirect := {}
  Rewrite : HttpRewrite := {}
  Timeout : Int := 0
  LoadBalancer : Option WeightRoundRobinBalancer := none
deriving DecidableEq, Repr

/-- The Go struct `RouteRule`. Modelled from the spec: `Http` is the ordered
list of route pointers that `Match` and `LoadServiceData` range over (an entry
may be nil); the declaration in the source files has a single `HttpRule`. -/
structure RouteRule where
  Name : String := ""
  ServiceName : String := ""
  Http : List (Option HttpRoute) := []
deriving DecidableEq, Repr

/-- The Go struct `Service`. Modelled from the spec: the service-level balancer
`LB` (a pointer) and the list `Rules` are used by `config.go` of package `data`
but are missing from the declaration in the source files. -/
structure Service where
  Name : String := ""
  Hosts : List String := []
  Clusters : List Cluster := []
  LB : Option LoadBalancer := none
  Rules : List RouteRule := []
deriving DecidableEq, Repr

/-! ## The snapshot (`cmd/proxy/data/config.go`) -/

/-- The Go struct `Maps`, without its channel `save`. The default value is the
one that `NewMaps` builds: four empty maps, none of them nil. -/
structure Maps where
  ServiceMap : GoMap (Option Service) := some []
  RuleMap : GoMap (Option (List RouteRule)) := some []
  Endpoints : GoMap (GoMap (Option Endpoint)) := some []
  Clusters : GoMap (GoMap (Option Cluster)) := some []
deriving DecidableEq, Repr

/-- The function `NewMaps`. -/
def NewMaps : Maps := {}

/-- The part `req.URL` of a request that `Match` reads. -/
structure URL where
  Scheme : String := ""
  Query : List (String × String) := []
deriving DecidableEq, Repr

/-- Modelled from the spec: the request type of package `pkg/protocol/http` is
not in the source files; these are the fields `Match` reads. -/
structure Request where
  Host : String := ""
  Method : String := ""
  Authority : String := ""
  RequestURI : String := ""
  URL : URL := {}
  Header : List (String × String) := []
  Port : Int := 0
deriving DecidableEq, Repr

/-- Modelled from the spec: `req.Header.Get(name)`; a missing header gives the
empty string. -/
def Request.HeaderGet (req : Request) (name : String) : String :=
  (req.Header.lookup name).getD ""

/-- Modelled from the spec: `req.URL.Query().Get(name)`; a missing parameter
gives the empty string. -/
def Request.QueryGet (req : Request) (name : String) : String :=
  (req.URL.Query.lookup name).getD ""

/-- Functions of the Go standard library that `checkMatch` calls. -/
structure Lib where
  /-- The function `strings.ToLower`. -/
  ToLower : String → String
  /-- The function `regexp.MatchString pattern s`: `none` when it returns an
  error (the pattern does not compile), `some b` for the answer `b`. -/
  MatchString : String → String → Option Bool

/-- Modelled from the spec: the `Select` methods of the balancers of package
`config`, which are not in the source files. -/
structure Balancers where
  /-- The method `Select` of an endpoint balancer on a list of endpoint
  pointers; `none` is a nil endpoint. -/
  Select : LoadBalancer → List (Option Endpoint) → Option Endpoint
  /-- The method `Select` of a route balancer on a key: the cluster name, or
  the error. -/
  SelectCluster : WeightRoundRobinBalancer → String → Except String String

/-- The function `strings.HasPrefix s p`. -/
def HasPrefix (s p : String) : Bool :=
  p.data.isPrefixOf s.data

/-- What a call of `Match` does: it returns an endpoint pointer and an error,
or it stops on a nil dereference. -/
inductive Outcome where
  | ret (endpoint : Option Endpoint) (err : Option String)
  | nilDeref
deriving DecidableEq, Repr

/-- The method `Maps.GetService`. -/
def Maps.GetService (m : Maps) (host : String) : Option Service :=
  (m.ServiceMap.lookup host).join

/-- The method `Maps.GetRule`. -/
def Maps.GetRule (m : Maps) (service : String) : Option (List RouteRule) :=
  (m.RuleMap.lookup service).join

/-- The method `Maps.GetServiceRule`. -/
def Maps.GetServiceRule (m : Maps) (host : String) : Option (List RouteRule) :=
  match m.GetService host with
  | none => none
  | some service => m.GetRule service.Name

/-- The method `Maps.GetEndpoints`: the values of the map `m.Endpoints[serviceId]`
(the nil map when the key is absent), in the order of the `range` loop. -/
def Maps.GetEndpoints (m : Maps) (serviceId : String) : List (Option Endpoint) :=
  ((m.Endpoints.lookup serviceId).getD none).entries.map Prod.snd

/-! ## `checkMatch` and `Match` -/

/-- The function `checkMatch`: the pair `(isMatched, needMatch)`. -/
def checkMatch (X : Lib) (stringMatch : StringMatch) (reqV : String) (ignoreCase : Bool) :
    Bool × Bool :=
  if !stringMatch.Empty then
    let tmpReqVal := if ignoreCase then X.ToLower reqV else reqV
    let isMatched :=
      if stringMatch.Exact != "" then
        let tmpExact := if ignoreCase then X.ToLower stringMatch.Exact else stringMatch.Exact
        tmpReqVal == tmpExact
      else if stringMatch.Prefix != "" then
        let tmpPrefix := if ignoreCase then X.ToLower stringMatch.Prefix else stringMatch.Prefix
        HasPrefix tmpReqVal tmpPrefix
      else if stringMatch.Regex != "" then
        match X.MatchString stringMatch.Regex tmpReqVal with
        | some matchString => matchString
        | none => false
      else false
    (isMatched, true)
  else (false, false)

/-- The loop over `match.Headers` in `Match`, from the state
`(headerMatched, headerNeedMatch)` to the state after the loop. -/
def headersLoop (X : Lib) (req : Request) :
    List (String × StringMatch) → Bool × Bool → Bool × Bool
  | [], st => st
  | (header, headerMatch) :: rest, (_, headerNeedMatch) =>
    let value := req.HeaderGet header
    let (matched, needMatch) := checkMatch X headerMatch value false
    -- headerMatched = matched
    if needMatch then
      -- headerNeedMatch = needMatch
      if !matched then (false, needMatch) -- break
      else headersLoop X req rest (matched, needMatch)
    else headersLoop X req rest (matched, headerNeedMatch)

/-- The loop over `match.WithoutHeaders` in `Match`, from the state
`(headerWithOutMatched, headerWithOutNeedMatch)` to the state after the loop. -/
def withoutHeadersLoop (X : Lib) (req : Request) :
    List (String × StringMatch) → Bool × Bool → Bool × Bool
  | [], st => st
  | (header, headerWithOutMatch) :: rest, (headerWithOutMatched, headerWithOutNeedMatch) =>
    let value := req.HeaderGet header
    let (matched, needMatch) := checkMatch X headerWithOutMatch value false
    if needMatch then
      if matched then (true, needMatch) -- break
      else withoutHeadersLoop X req rest (headerWithOutMatched, needMatch)
    else withoutHeadersLoop X req rest (headerWithOutMatched, headerWithOutNeedMatch)

/-- The loop over `match.QueryParams` in `Match`, from the state
`(paramMatched, paramNeedMatch)` to the state after the loop. -/
def queryParamsLoop (X : Lib) (req : Request) :
    List (String × StringMatch) → Bool × Bool → Bool × Bool
  | [], st => st
  | (paramName, paramMatch) :: rest, (paramMatched, paramNeedMatch) =>
    let values := req.QueryGet paramName
    let (matched, needMatch) := checkMatch X paramMatch values false
    if needMatch then
      if matched then (false, needMatch) -- break
      else queryParamsLoop X req rest (paramMatched, needMatch)
    else queryParamsLoop X req rest (paramMatched, paramNeedMatch)

/-- The predicates of one clause in `Match` (the body of the loop over
`httpRule.Match` up to the action): `false` when one of the `continue`
statements is reached, `true` when the action is reached. -/
def clauseSatisfied (X : Lib) (req : Request) (m : HttpMatchRequest) : Bool :=
  let (methodMatched, methodNeedMatch) := checkMatch X m.Method req.Method false
  if methodNeedMatch && !methodMatched then false else
  let (authorityMatched, authorityNeedMatch) := checkMatch X m.Authority req.Authority false
  if authorityNeedMatch && !authorityMatched then false else
  let (schemeMatched, schemeNeedMatch) := checkMatch X m.Scheme req.URL.Scheme false
  if schemeNeedMatch && !schemeMatched then false else
  let (uriMatched, uriNeedMatch) := checkMatch X m.Uri req.RequestURI m.IgnoreUriCase
  if uriNeedMatch && !uriMatched then false else
  let (headerMatched, headerNeedMatch) :=
    headersLoop X req m.Headers (true, decide (m.Headers.length > 0))
  if headerNeedMatch && !headerMatched then false else
  let (headerWithOutMatched, headerWithOutNeedMatch) :=
    withoutHeadersLoop X req m.WithoutHeaders (false, decide (m.WithoutHeaders.length > 0))
  if headerWithOutNeedMatch && headerWithOutMatched then false else
  let (paramMatched, paramNeedMatch) :=
    queryParamsLoop X req m.QueryParams (true, decide (m.QueryParams.length > 0))
  if paramNeedMatch && !paramMatched then false else
  let portMatched := if m.Port != 0 then m.Port == req.Port else true
  let portNeedMatch := m.Port != 0
  if portNeedMatch && !portMatched then false else
  true

/-- The action of `Match` for a selected clause of a route whose balancer is
`lb`: the statements from `httpRule.LoadBalancer.Select("")` to the `return`. -/
def routeAction (B : Balancers) (S : Maps) (service : Service) (lb : WeightRoundRobinBalancer) :
    Outcome :=
  match B.SelectCluster lb "" with
  | .error err => .ret none (some err)
  | .ok cluster =>
    match S.Clusters.lookup service.Name with
    | none => .ret none (some "service no cluster")
    | some clusterMap =>
      match clusterMap.lookup cluster with
      | some (some clusterV) =>
        match clusterV.TrafficPolicy.LoadBalancer.LoadBalancer with
        | none => .ret none (some "cluster not found")
        | some balancer =>
          if clusterV.TrafficPolicy.LoadBalancer.Simple == PASSTHROUGH then
            .ret none (some "PassThrough")
          else
            .ret (B.Select balancer clusterV.Endpoints) none
      | _ => .ret none (some "cluster not found")

/-- The loop over the clauses `httpRule.Match` of one route in `Match`: `some`
of the outcome when the loop returns, `none` when it runs to its end. -/
def matchLoop (X : Lib) (B : Balancers) (S : Maps) (service : Service) (req : Request)
    (httpRuleLB : Option WeightRoundRobinBalancer) : List HttpMatchRequest → Option Outcome
  | [] => none
  | m :: rest =>
    if clauseSatisfied X req m then
      match httpRuleLB with
      | some lb => some (routeAction B S service lb)
      | none => matchLoop X B S service req httpRuleLB rest
    else matchLoop X B S service req httpRuleLB rest

/-- The loop over the routes `rule.Http` of one rule in `Match`. -/
def httpLoop (X : Lib) (B : Balancers) (S : Maps) (service : Service) (req : Request) :
    List (Option HttpRoute) → Option Outcome
  | [] => none
  | none :: rest => httpLoop X B S service req rest
  | some httpRule :: rest =>
    let r :=
      if httpRule.Match.length > 0 then
        matchLoop X B S service req httpRule.LoadBalancer httpRule.Match
      else none
    match r with
    | some o => some o
    | none => httpLoop X B S service req rest

/-- The loop over the rules in `Match`. -/
def ruleLoop (X : Lib) (B : Balancers) (S : Maps) (service : Service) (req : Request) :
    List RouteRule → Option Outcome
  | [] => none
  | rule :: rest =>
    match httpLoop X B S service req rule.Http with
    | some o => some o
    | none => ruleLoop X B S service req rest

/-- The function `Match` on the current snapshot `S`. -/
def Match (X : Lib) (B : Balancers) (S : Maps) (req : Request) : Outcome :=
  match S.GetService req.Host with
  | none => .ret none (some "no service")
  | some service =>
    let rules := S.GetRule service.Name
    if rules.isNone || (rules.getD []).length ≤ 0 then
      let endpoints := S.GetEndpoints service.Name
      if endpoints.length ≤ 0 then .ret none (some "no cluster")
      else
        match service.LB with
        | none => .nilDeref
        | some balancer => .ret (B.Select balancer endpoints) none
    else
      match ruleLoop X B S service req (rules.getD []) with
      | some o => o
      | none => .ret none (some "no endpoint")

/-! ## Concrete instances for evaluating examples -/

/-- An instance of the library functions on which the definitions can be
evaluated: lower-casing of the ASCII letters and a regex engine that rejects
every pattern. -/
def sampleLib : Lib where
  ToLower := fun s => String.mk (s.data.map Char.toLower)
  MatchString := fun _ _ => none

/-- An instance of the balancers on which the definitions can be evaluated: an
endpoint balancer that returns the first candidate and a route balancer that
returns the first cluster added to it. -/
def sampleBalancers : Balancers where
  Select := fun _ endpoints => endpoints.head?.join
  SelectCluster := fun lb _ =>
    match lb.added with
    | [] => .error "no cluster added"
    | (cluster, _) :: _ => .ok cluster

/-! ## The predicates of a clause, one by one -/

/-- The outcome of a `StringMatch` predicate of a clause: the negation of the
test `needMatch && !matched` that guards its `continue`. -/
def stringPass (X : Lib) (stringMatch : StringMatch) (reqV : String) (ignoreCase : Bool) :
    Bool :=
  !((checkMatch X stringMatch reqV ignoreCase).2 && !(checkMatch X stringMatch reqV ignoreCase).1)

/-- The outcome of the headers predicate of a clause: the loop over the map,
then the negation of the test `headerNeedMatch && !headerMatched`. -/
def headersPass (X : Lib) (req : Request) (headers : List (String × StringMatch)) : Bool :=
  !((headersLoop X req headers (true, decide (headers.length > 0))).2 &&
    !(headersLoop X req headers (true, decide (headers.length > 0))).1)

/-- The outcome of the negative-headers predicate of a clause: the loop over
the map, then the negation of the test
`headerWithOutNeedMatch && headerWithOutMatched`. -/
def withoutHeadersPass (X : Lib) (req : Request) (headers : List (String × StringMatch)) :
    Bool :=
  !((withoutHeadersLoop X req headers (false, decide (headers.length > 0))).2 &&
    (withoutHeadersLoop X req headers (false, decide (headers.length > 0))).1)

/-- The outcome of the query-parameter predicate of a clause: the loop over the
map, then the negation of the test `paramNeedMatch && !paramMatched`. -/
def queryParamsPass (X : Lib) (req : Request) (params : List (String × StringMatch)) : Bool :=
  !((queryParamsLoop X req params (true, decide (params.length > 0))).2 &&
    !(queryParamsLoop X req params (true, decide (params.length > 0))).1)

/-- The outcome of the port predicate of a clause. -/
def portPass (req : Request) (m : HttpMatchRequest) : Bool :=
  !(m.Port != 0 && !(if m.Port != 0 then m.Port == req.Port else true))

/-- Whether the `StringMatch` of a header entry matches the request's value of
that header. -/
def headerEntryMatched (X : Lib) (req : Request) (e : String × StringMatch) : Bool :=
  (checkMatch X e.2 (req.HeaderGet e.1) false).1

/-- Whether the `StringMatch` of a query-parameter entry matches the request's
value of that parameter. -/
def paramEntryMatched (X : Lib) (req : Request) (e : String × StringMatch) : Bool :=
  (checkMatch X e.2 (req.QueryGet e.1) false).1

/-! ## First match, as the specification words it -/

/-- The clauses of a route, each paired with the route's balancer; none when
the route has no balancer. -/
def clausesOf :
    Option WeightRoundRobinBalancer → List HttpMatchRequest →
      List (WeightRoundRobinBalancer × HttpMatchRequest)
  | none, _ => []
  | some lb, ms => ms.map (fun m => (lb, m))

/-- The clauses of one entry of `rule.Http`; a nil route contributes none. -/
def routeClauses : Option HttpRoute → List (WeightRoundRobinBalancer × HttpMatchRequest)
  | none => []
  | some httpRule => clausesOf httpRule.LoadBalancer httpRule.Match

/-- The clauses of a rule list in rule order, then route order within the rule,
then clause order within the route, among the routes that carry a balancer. -/
def candidateClauses (rules : List RouteRule) :
    List (WeightRoundRobinBalancer × HttpMatchRequest) :=
  rules.flatMap (fun rule => rule.Http.flatMap routeClauses)

/-- The result the specification gives for a service with rules: the action of
the route of the first fully satisfied clause, `no endpoint` when there is
none. -/
def firstMatch (X : Lib) (B : Balancers) (S : Maps) (service : Service) (req : Request)
    (rules : List RouteRule) : Outcome :=
  match (candidateClauses rules).find? (fun p => clauseSatisfied X req p.2) with
  | some p => routeAction B S service p.1
  | none => .ret none (some "no endpoint")

/-- The outcome for the first fully satisfied clause of a candidate list, if it
has one. -/
def selectFirst (X : Lib) (B : Balancers) (S : Maps) (service : Service) (req : Request)
    (l : List (WeightRoundRobinBalancer × HttpMatchRequest)) : Option Outcome :=
  (l.find? (fun p => clauseSatisfied X req p.2)).map (fun p => routeAction B S service p.1)

/-! ## Example configuration -/

/-- The endpoint `10.0.0.1:1`. -/
def E1 : Endpoint := { Ip := "10.0.0.1", Port := "1" }

/-- The endpoint `10.0.0.2:2`. -/
def E2 : Endpoint := { Ip := "10.0.0.2", Port := "2" }

/-- The cluster `c` with endpoints `E1` and `E2`, configured `simple: ROUND_ROBIN`
and given a round-robin endpoint balancer. -/
def exCluster : Cluster :=
  { Name := "c", Endpoints := [some E1, some E2],
    TrafficPolicy :=
      { LoadBalancer :=
          { Simple := "ROUND_ROBIN", LoadBalancer := some .RoundRobinLoadBalancer } } }

/-- A route to cluster `c` with the given clauses, its balancer built. -/
def exRoute (clauses : List HttpMatchRequest) : HttpRoute :=
  { Match := clauses, Route := [{ Destination := { Cluster := "c" }, Weight := 1 }],
    LoadBalancer := some { added := [("c", "1")] } }

/-- The service `s` on host `h` with cluster `c` and the given rules. -/
def exService (rules : List RouteRule) : Service :=
  { Name := "s", Hosts := ["h"], Clusters := [exCluster],
    LB := some .RoundRobinLoadBalancer, Rules := rules }

/-- The snapshot of the service `s` with the given rules and the given value in
the cluster index for `c`. -/
def exMapsWith (rules : List RouteRule) (c : Cluster) : Maps :=
  { ServiceMap := some [("h", some (exService rules))],
    RuleMap := some [("s", some rules)],
    Endpoints := some [("s", some [("10.0.0.1:1", some E1), ("10.0.0.2:2", some E2)])],
    Clusters := some [("s", some [("c", some c)])] }

/-- The snapshot of the service `s` with the given rules. -/
def exMaps (rules : List RouteRule) : Maps := exMapsWith rules exCluster

/-- The rule of scenario S5: one route with the clauses `uri prefix "/a"` and
`uri prefix "/b"`. -/
def exRuleAB : RouteRule :=
  { Name := "ab", Http := [some (exRoute [{ Uri := { Prefix := "/a" } }, { Uri := { Prefix := "/b" } }])] }

/-- The rule of scenario S2: one route with the clause `method exact "POST"`. -/
def exRulePost : RouteRule :=
  { Name := "post", Http := [some (exRoute [{ Method := { Exact := "POST" } }])] }

/-! ## The loader `LoadServiceData` -/

/-- The Go struct `ProxyConfig`, the parsed configuration document. -/
structure ProxyConfig where
  Services : List Service := []
  Rules : List RouteRule := []
deriving DecidableEq, Repr

/-- The function `strconv.Itoa`. -/
def Itoa (n : Int) : String := toString n

/-- The method `Add` of the route balancer: the call is recorded. -/
def WeightRoundRobinBalancer.Add (lb : WeightRoundRobinBalancer) (cluster weight : String) :
    WeightRoundRobinBalancer :=
  { added := lb.added ++ [(cluster, weight)] }

/-- The loop over the destinations `routeDest` of a route in `LoadServiceData`,
on the balancer being built. -/
def destinationLoop :
    List HttpRouteDestination → WeightRoundRobinBalancer → WeightRoundRobinBalancer
  | [], lb => lb
  | destination :: rest, lb =>
    if destination.Weight ≤ 0 then destinationLoop rest lb -- continue
    else if destination.Destination.Cluster == "" then destinationLoop rest lb -- continue
    else
      destinationLoop rest
        (lb.Add destination.Destination.Cluster (Itoa destination.Weight))

/-- The body of the loop over `rule.Http` in `LoadServiceData`, on a route that
is not nil: the route after the body. -/
def initRouteBalancer (httpRoute : HttpRoute) : HttpRoute :=
  if httpRoute.LoadBalancer.isNone then
    let routeDest := httpRoute.Route
    { httpRoute with LoadBalancer := some (destinationLoop routeDest {}) }
  else httpRoute

/-- The loop over `rule.Http` in `LoadServiceData`: the routes after the loop,
`none` when a nil route is dereferenced. -/
def routeLoop : List (Option HttpRoute) → Option (List (Option HttpRoute))
  | [] => some []
  | none :: _ => none
  | some httpRoute :: rest =>
    match routeLoop rest with
    | none => none
    | some routes => some (some (initRouteBalancer httpRoute) :: routes)

/-- The body of the loop over `service.Clusters` in `LoadServiceData` up to the
registration: the cluster with its endpoint balancer resolved. The `switch`
compares `Simple` with the four variables in source order. -/
def initClusterBalancer (cluster : Cluster) : Cluster :=
  if cluster.TrafficPolicy.LoadBalancer.LoadBalancer.isNone then
    let simple := cluster.TrafficPolicy.LoadBalancer.Simple
    let lb : LoadBalancer :=
      if simple == ROUND_ROBIN then .RoundRobinLoadBalancer
      else if simple == RANDOM then .RandomLoadBalancer
      else if simple == LEAST_CONN then .LastConnLoadBalancer (-1)
      else if simple == PASSTHROUGH then .PassThroughLoadBalancer
      else .RoundRobinLoadBalancer
    { cluster with
      TrafficPolicy :=
        { LoadBalancer := { cluster.TrafficPolicy.LoadBalancer with LoadBalancer := some lb } } }
  else cluster

/-- The loop over `cluster.Endpoints` in `LoadServiceData`, on the endpoint map
of the service: the map after the loop, `none` when a nil endpoint is
dereferenced or the map is nil. -/
def endpointLoop :
    List (Option Endpoint) → GoMap (Option Endpoint) → Option (GoMap (Option Endpoint))
  | [], endpointMap => some endpointMap
  | none :: _, _ => none
  | some endpoint :: rest, endpointMap =>
    match endpointMap.set (endpoint.Ip ++ ":" ++ endpoint.Port) (some endpoint) with
    | none => none
    | some endpointMap' => endpointLoop rest endpointMap'

/-- The loop over `service.Clusters` in `LoadServiceData`, on the cluster map
and the endpoint map of the service: the two maps after the loop, `none` when
the loop panics. -/
def clusterLoop :
    List Cluster → GoMap (Option Cluster) × GoMap (Option Endpoint) →
      Option (GoMap (Option Cluster) × GoMap (Option Endpoint))
  | [], st => some st
  | c :: rest, (clusterMap, endpointMap) =>
    let cluster := initClusterBalancer c
    match clusterMap.set cluster.Name (some cluster) with
    | none => none
    | some clusterMap' =>
      match endpointLoop cluster.Endpoints endpointMap with
      | none => none
      | some endpointMap' => clusterLoop rest (clusterMap', endpointMap')

/-- The loop over `service.Hosts` in `LoadServiceData`; `stored` is what the
pointer `&service` refers to. `none` when the map is nil. -/
def hostLoop (stored : Service) :
    List String → GoMap (Option Service) → Option (GoMap (Option Service))
  | [], serviceMap => some serviceMap
  | host :: rest, serviceMap =>
    match serviceMap.set host (some stored) with
    | none => none
    | some serviceMap' => hostLoop stored rest serviceMap'

/-- The loop over `service.Rules` in `LoadServiceData`, on the rule map: `none`
when the loop panics (a nil rule list registered under the service's name, a
nil route, a nil rule map). The routes are pointers, so the rule registered in
the map has the balancers that the loop over `rule.Http` builds. -/
def ruleListLoop (name : String) :
    List RouteRule → GoMap (Option (List RouteRule)) →
      Option (GoMap (Option (List RouteRule)))
  | [], ruleMap => some ruleMap
  | rule :: rest, ruleMap =>
    let rules : Option (List RouteRule) :=
      match ruleMap.lookup name with
      | none => some []
      | some none => none
      | some (some rules) => some rules
    match rules with
    | none => none
    | some rules =>
      match routeLoop rule.Http with
      | none => none
      | some http =>
        match ruleMap.set name (some (rules ++ [{ rule with Http := http }])) with
        | none => none
        | some ruleMap' => ruleListLoop name rest ruleMap'

/-- A rule of the configuration once `LoadServiceData` has run the loop over
`rule.Http` on it: its routes (pointers) have their balancers. -/
def registeredRule (rule : RouteRule) : RouteRule :=
  { rule with Http := rule.Http.map (Option.map initRouteBalancer) }

/-- The value of the range variable `service` of `LoadServiceData` at the end
of the iteration on `service`: its balancer defaulted, its routes (pointers)
with the balancers that the iteration builds. -/
def serviceVariable (service : Service) : Service :=
  { service with
    LB := if service.LB.isNone then some .RoundRobinLoadBalancer else service.LB
    Rules := service.Rules.map registeredRule }

/-- The statements `inner, ok := index[name]; if !ok { inner = make(...);
index[name] = inner }` of `LoadServiceData`: the index and the inner map
afterwards, `none` when the assignment is to a nil index. -/
def ensureInner {V : Type} (index : GoMap (GoMap V)) (name : String) :
    Option (GoMap (GoMap V) × GoMap V) :=
  match index.lookup name with
  | some inner => some (index, inner)
  | none =>
    match index.set name (some []) with
    | none => none
    | some index' => some (index', some [])

/-- One iteration of the loop over `pc.Services` in `LoadServiceData`, on the
snapshot `m`; `stored` is what the pointer `&service` refers to. The inner maps
are the objects that the two indexes refer to, so the indexes hold them as the
loops leave them. `none` when the iteration panics. -/
def loadService (stored : Service) (m : Maps) (service : Service) : Option Maps :=
  match ensureInner m.Clusters service.Name with
  | none => none
  | some (clusters, clusterMap) =>
    match ensureInner m.Endpoints service.Name with
    | none => none
    | some (endpoints, endpointMap) =>
      match clusterLoop service.Clusters (clusterMap, endpointMap) with
      | none => none
      | some (clusterMap', endpointMap') =>
        match hostLoop stored service.Hosts m.ServiceMap with
        | none => none
        | some serviceMap =>
          match ruleListLoop service.Name service.Rules m.RuleMap with
          | none => none
          | some ruleMap =>
            match clusters.set service.Name clusterMap',
                  endpoints.set service.Name endpointMap' with
            | some clusters', some endpoints' =>
              some
                { ServiceMap := serviceMap
                  RuleMap := ruleMap
                  Endpoints := endpoints'
                  Clusters := clusters' }
            | _, _ => none

/-- The loop over `pc.Services` in `LoadServiceData`. -/
def serviceLoop (stored : Service) : List Service → Maps → Option Maps
  | [], m => some m
  | service :: rest, m =>
    match loadService stored m service with
    | none => none
    | some m' => serviceLoop stored rest m'

/-- The method `Maps.LoadServiceData`, from the parsed configuration `pc` on
(reading the file, the YAML decoder and `defaults.Set` are outside the model;
the declarations of the source files carry no default tag): the snapshot `m`
after the call, `none` when the call panics (a nil pointer is dereferenced or
an entry of a nil map is assigned).

`for _, service := range pc.Services` declares one variable `service` for the
whole loop (the semantics of Go before version 1.22, for which the code is
written: the loops over `service.Clusters` and `rule.Http` take a copy by index
before taking an address), and `m.ServiceMap[host] = &service` stores the
address of that variable. Every entry written by one call therefore refers to
the same variable, which when the call returns holds the last service of
`pc.Services`. -/
def LoadServiceData (m : Maps) (pc : ProxyConfig) : Option Maps :=
  match pc.Services.getLast? with
  | none => some m
  | some last => serviceLoop (serviceVariable last) pc.Services m

/-! ## The snapshot store `CowMaps` and `Load` -/

/-- The Go struct `CowMaps` with the `Maps` objects it refers to: `objects`
lists the `Maps` objects allocated so far, an address being a position in the
list, and `v` is the address held by the atomic value. -/
structure CowMaps where
  objects : List Maps := []
  v : Nat := 0
deriving DecidableEq, Repr

/-- The `Maps` object at an address. -/
def CowMaps.read (cm : CowMaps) (p : Nat) : Maps :=
  cm.objects.getD p {}

/-- The method `CowMaps.Get`: the address of the current snapshot. -/
def CowMaps.Get (cm : CowMaps) : Nat := cm.v

/-- The method `CowMaps.Update`: the callback runs on a copy of the current
snapshot and its result is published as a new object. The copy `dup` is a JSON
round trip, a parameter here. -/
def CowMaps.Update (dup : Maps → Maps) (cm : CowMaps) (callback : Maps → Maps) : CowMaps :=
  { objects := cm.objects ++ [callback (dup (cm.read cm.v))], v := cm.objects.length }

/-- The function `Load` without a cache file, from the parsed configuration on
(the file reads, `SaveCache` and the timer are outside the model):
`ServiceData.Get().LoadServiceData(...)` runs on the object that `Get` returns. -/
def Load (cm : CowMaps) (pc : ProxyConfig) : Option CowMaps :=
  match LoadServiceData (cm.read cm.Get) pc with
  | none => none
  | some m => some { cm with objects := cm.objects.set cm.Get m }

/-- The function `Match` when its calls of `ServiceData.Get()` return the
snapshot `S₁` (the call for `GetService`), the snapshot `S₂` (the call for
`GetRule`) and the snapshot `S₃` (the call for `GetEndpoints`, or the one for
the cluster index in the action). -/
def MatchAt (X : Lib) (B : Balancers) (S₁ S₂ S₃ : Maps) (req : Request) : Outcome :=
  match S₁.GetService req.Host with
  | none => .ret none (some "no service")
  | some service =>
    let rules := S₂.GetRule service.Name
    if rules.isNone || (rules.getD []).length ≤ 0 then
      let endpoints := S₃.GetEndpoints service.Name
      if endpoints.length ≤ 0 then .ret none (some "no cluster")
      else
        match service.LB with
        | none => .nilDeref
        | some balancer => .ret (B.Select balancer endpoints) none
    else
      match ruleLoop X B S₃ service req (rules.getD []) with
      | some o => o
      | none => .ret none (some "no endpoint")

/-! ## Regular expressions -/

/-- What a compiled pattern matches: whether it matches the part `w` of a
searched string `u ++ w ++ t` (an anchor looks at `u` and at `t`). -/
abbrev MatchRel := List Char → List Char → List Char → Bool

/-- The ways of cutting a string in three parts `u ++ w ++ t`. -/
def splits (s : List Char) : List (List Char × List Char × List Char) :=
  (s.inits.zip s.tails).flatMap
    (fun p => (p.2.inits.zip p.2.tails).map (fun q => (p.1, q.1, q.2)))

/-- Whether the string `s` contains a match of a pattern whose match relation
is `M`. -/
def searchMatch (M : MatchRel) (s : String) : Bool :=
  (splits s.data).any (fun p => M p.1 p.2.1 p.2.2)

/-- Whether the whole string `s` is matched by a pattern whose match relation
is `M`: `s` is in the language of the pattern. -/
def wholeMatch (M : MatchRel) (s : String) : Bool :=
  M [] s.data []

/-- The documented behaviour of `regexp.MatchString`, for the match relations
`sem` of the patterns (`none` for a pattern that does not compile): an error
for a pattern that does not compile, otherwise whether `s` contains any match
of the pattern. -/
def SearchesForMatch (X : Lib) (sem : String → Option MatchRel) : Prop :=
  ∀ pattern s, X.MatchString pattern s = (sem pattern).map (fun M => searchMatch M s)

/-- The match relation of a pattern made of an optional `^`, then characters
that are not metacharacters, then an optional `$`: the characters match
themselves, `^` only at the start of the searched string and `$` only at its
end. -/
def anchoredLiteral (pattern : String) : Option MatchRel :=
  let atStart := pattern.data.head? == some (Char.ofNat 94)
  let p := if atStart then pattern.data.drop 1 else pattern.data
  let atEnd := p.getLast? == some (Char.ofNat 36)
  let body := if atEnd then p.dropLast else p
  some (fun u w t => w == body && (!atStart || u.isEmpty) && (!atEnd || t.isEmpty))

/-- An instance of the library functions whose `MatchString` is
`regexp.MatchString` on the patterns made of an optional `^`, characters that
are not metacharacters and an optional `$`. -/
def anchoredLiteralLib : Lib where
  ToLower := fun s => String.mk (s.data.map Char.toLower)
  MatchString := fun pattern s => (anchoredLiteral pattern).map (fun M => searchMatch M s)

/-! ## Example configurations for the loader -/

/-- A route to cluster `c` with the given clauses, as parsed: no balancer yet. -/
def exRouteParsed (clauses : List HttpMatchRequest) : HttpRoute :=
  { Match := clauses, Route := [{ Destination := { Cluster := "c" }, Weight := 1 }] }

/-- The cluster `c` as parsed from a document that leaves its `loadBalancer`
settings empty. -/
def exClusterDefault : Cluster := { Name := "c", Endpoints := [some E1, some E2] }

/-- A configuration with the service `s` on host `h`, the cluster `c` with
empty `loadBalancer` settings and one route to `c` for `uri prefix "/a"`. -/
def exConfigDefault : ProxyConfig :=
  { Services :=
      [{ Name := "s", Hosts := ["h"], Clusters := [exClusterDefault],
         Rules := [{ Name := "a", Http := [some (exRouteParsed [{ Uri := { Prefix := "/a" } }])] }] }] }

/-- The cluster `c` as parsed from a document that sets `simple: PASSTHROUGH`
(scenario S4). -/
def exClusterPassThrough : Cluster :=
  { Name := "c", Endpoints := [some E1, some E2],
    TrafficPolicy := { LoadBalancer := { Simple := "PASSTHROUGH" } } }

/-- The configuration of scenario S4: the service `s` on host `h`, the cluster
`c` with `simple: PASSTHROUGH` and one route to `c` for `uri prefix "/a"`. -/
def exConfigPassThrough : ProxyConfig :=
  { Services :=
      [{ Name := "s", Hosts := ["h"], Clusters := [exClusterPassThrough],
         Rules := [{ Name := "a", Http := [some (exRouteParsed [{ Uri := { Prefix := "/a" } }])] }] }] }

/-- A snapshot as `NewMaps` and `LoadServiceData` build them: no map of the
snapshot is nil and no rule list registered in it is nil. -/
def Maps.WellFormed (m : Maps) : Prop :=
  m.ServiceMap ≠ none ∧ m.RuleMap ≠ none ∧ m.Endpoints ≠ none ∧ m.Clusters ≠ none ∧
  (∀ name, m.RuleMap.lookup name ≠ some none) ∧
  (∀ name, m.Endpoints.lookup name ≠ some none) ∧
  (∀ name, m.Clusters.lookup name ≠ some none)

/-- The cluster `c` configured `simple: ROUND_ROBIN`, with a round-robin
balancer and no endpoint. -/
def exClusterEmpty : Cluster :=
  { Name := "c", Endpoints := [],
    TrafficPolicy :=
      { LoadBalancer :=
          { Simple := "ROUND_ROBIN", LoadBalancer := some .RoundRobinLoadBalancer } } }

/-- A configuration with two services whose host lists are disjoint, each with
one rule. -/
def exConfigTwo : ProxyConfig :=
  { Services :=
      [{ Name := "s1", Hosts := ["h1"],
         Rules := [{ Name := "r1", Http := [some (exRouteParsed [{ Uri := { Prefix := "/a" } }])] }] },
       { Name := "s2", Hosts := ["h2"],
         Rules := [{ Name := "r2", Http := [some (exRouteParsed [{ Method := { Exact := "POST" } }])] }] }] }

/-- A configuration that lists the host `h` under two services. -/
def exConfigConflict : ProxyConfig :=
  { Services := [{ Name := "s1", Hosts := ["h"] }, { Name := "s2", Hosts := ["h"] }] }

/-- A configuration with the service `t` on host `g` and one rule. -/
def exConfigT : ProxyConfig :=
  { Services :=
      [{ Name := "t", Hosts := ["g"],
         Rules := [{ Name := "a", Http := [some (exRouteParsed [{ Uri := { Prefix := "/a" } }])] }] }] }

/-- The cluster `c` with the single endpoint `E2`. -/
def exClusterE2 : Cluster :=
  { Name := "c", Endpoints := [some E2],
    TrafficPolicy :=
      { LoadBalancer :=
          { Simple := "ROUND_ROBIN", LoadBalancer := some .RoundRobinLoadBalancer } } }

/-- A store whose current snapshot is the one of scenario S1: the service `s`
on host `h`, without rules. -/
def exStore : CowMaps := { objects := [exMaps []], v := 0 }

/-- A route as parsed, with four destinations of which two are to be dropped. -/
def exRouteFour : HttpRoute :=
  { Route :=
      [{ Destination := { Cluster := "c" }, Weight := 3 },
       { Destination := { Cluster := "d" }, Weight := 0 },
       { Destination := { Cluster := "" }, Weight := 2 },
       { Destination := { Cluster := "e" }, Weight := 1 }] }

/-- A store whose current snapshot is the one of scenario S5: the routes for
`/a` and `/b` to the cluster `c` with the endpoints `E1` and `E2`. -/
def exStoreAB : CowMaps := { objects := [exMaps [exRuleAB]], v := 0 }

/-- The store `exStoreAB` after an update that publishes a snapshot in which
the service has the rule of scenario S2 and the cluster `c` has the single
endpoint `E2`. -/
def exStoreUpdated : CowMaps :=
  exStoreAB.Update id (fun _ => exMapsWith [exRulePost] exClusterE2)

/-! ## Lemmas on `checkMatch` and on the loops -/

theorem checkMatch_snd (X : Lib) (sm : StringMatch) (v : String) (ic : Bool) :
    (checkMatch X sm v ic).2 = !sm.Empty := by
  unfold checkMatch
  cases sm.Empty <;> simp

theorem checkMatch_of_empty (X : Lib) (sm : StringMatch) (v : String) (ic : Bool)
    (h : sm.Empty = true) : checkMatch X sm v ic = (false, false) := by
  unfold checkMatch
  simp [h]

theorem checkMatch_fst_imp (X : Lib) (sm : StringMatch) (v : String) (ic : Bool)
    (h : (checkMatch X sm v ic).1 = true) : sm.Empty = false := by
  cases hE : sm.Empty
  · rfl
  · rw [checkMatch_of_empty X sm v ic hE] at h
    simp at h

theorem stringPass_of_empty (X : Lib) (sm : StringMatch) (v : String) (ic : Bool)
    (h : sm.Empty = true) : stringPass X sm v ic = true := by
  simp [stringPass, checkMatch_of_empty X sm v ic h]

theorem stringPass_of_specified (X : Lib) (sm : StringMatch) (v : String) (ic : Bool)
    (h : sm.Empty = false) : stringPass X sm v ic = (checkMatch X sm v ic).1 := by
  simp [stringPass, checkMatch_snd, h]

theorem clauseSatisfied_eq (X : Lib) (req : Request) (m : HttpMatchRequest) :
    clauseSatisfied X req m =
      (stringPass X m.Method req.Method false &&
       stringPass X m.Authority req.Authority false &&
       stringPass X m.Scheme req.URL.Scheme false &&
       stringPass X m.Uri req.RequestURI m.IgnoreUriCase &&
       headersPass X req m.Headers &&
       withoutHeadersPass X req m.WithoutHeaders &&
       queryParamsPass X req m.QueryParams &&
       portPass req m) := by
  unfold clauseSatisfied stringPass headersPass withoutHeadersPass queryParamsPass portPass
  simp only [Bool.if_false_left, Bool.and_true, Bool.and_assoc, Bool.decide_eq_true]

theorem headersLoop_cons (X : Lib) (req : Request) (k : String) (sm : StringMatch)
    (rest : List (String × StringMatch)) (st : Bool × Bool) :
    headersLoop X req ((k, sm) :: rest) st =
      if sm.Empty then headersLoop X req rest (false, st.2)
      else if headerEntryMatched X req (k, sm) then headersLoop X req rest (true, true)
      else (false, true) := by
  obtain ⟨a, b⟩ := st
  have h2 := checkMatch_snd X sm (req.HeaderGet k) false
  cases hE : sm.Empty
  · cases hc : checkMatch X sm (req.HeaderGet k) false with
    | mk c d =>
      rw [hc, hE] at h2
      simp only [Bool.not_false] at h2
      subst h2
      cases c <;> simp [headersLoop, headerEntryMatched, hc]
  · simp [headersLoop, checkMatch_of_empty X sm (req.HeaderGet k) false hE]

theorem withoutHeadersLoop_cons (X : Lib) (req : Request) (k : String) (sm : StringMatch)
    (rest : List (String × StringMatch)) (st : Bool × Bool) :
    withoutHeadersLoop X req ((k, sm) :: rest) st =
      if sm.Empty then withoutHeadersLoop X req rest st
      else if headerEntryMatched X req (k, sm) then (true, true)
      else withoutHeadersLoop X req rest (st.1, true) := by
  obtain ⟨a, b⟩ := st
  have h2 := checkMatch_snd X sm (req.HeaderGet k) false
  cases hE : sm.Empty
  · cases hc : checkMatch X sm (req.HeaderGet k) false with
    | mk c d =>
      rw [hc, hE] at h2
      simp only [Bool.not_false] at h2
      subst h2
      cases c <;> simp [withoutHeadersLoop, headerEntryMatched, hc]
  · simp [withoutHeadersLoop, checkMatch_of_empty X sm (req.HeaderGet k) false hE]

theorem queryParamsLoop_cons (X : Lib) (req : Request) (k : String) (sm : StringMatch)
    (rest : List (String × StringMatch)) (st : Bool × Bool) :
    queryParamsLoop X req ((k, sm) :: rest) st =
      if sm.Empty then queryParamsLoop X req rest st
      else if paramEntryMatched X req (k, sm) then (false, true)
      else queryParamsLoop X req rest (st.1, true) := by
  obtain ⟨a, b⟩ := st
  have h2 := checkMatch_snd X sm (req.QueryGet k) false
  cases hE : sm.Empty
  · cases hc : checkMatch X sm (req.QueryGet k) false with
    | mk c d =>
      rw [hc, hE] at h2
      simp only [Bool.not_false] at h2
      subst h2
      cases c <;> simp [queryParamsLoop, paramEntryMatched, hc]
  · simp [queryParamsLoop, checkMatch_of_empty X sm (req.QueryGet k) false hE]

theorem headerEntryMatched_imp (X : Lib) (req : Request) (e : String × StringMatch)
    (h : headerEntryMatched X req e = true) : e.2.Empty = false :=
  checkMatch_fst_imp X e.2 (req.HeaderGet e.1) false h

theorem paramEntryMatched_imp (X : Lib) (req : Request) (e : String × StringMatch)
    (h : paramEntryMatched X req e = true) : e.2.Empty = false :=
  checkMatch_fst_imp X e.2 (req.QueryGet e.1) false h

/-- With every entry specified, the header loop ends with `headerNeedMatch`
set and `headerMatched` the conjunction over the entries. -/
theorem headersLoop_specified (X : Lib) (req : Request) :
    ∀ (l : List (String × StringMatch)) (st : Bool × Bool), l ≠ [] →
      (∀ e ∈ l, e.2.Empty = false) →
      headersLoop X req l st = (l.all (headerEntryMatched X req), true)
  | [], _, h, _ => absurd rfl h
  | (k, sm) :: rest, st, _, hs => by
    have hsm : sm.Empty = false := hs (k, sm) (List.mem_cons_self _ _)
    have hrest : ∀ e ∈ rest, e.2.Empty = false := fun e he => hs e (List.mem_cons_of_mem _ he)
    rw [headersLoop_cons, hsm]
    cases hm : headerEntryMatched X req (k, sm)
    · simp [hm]
    · cases rest with
      | nil => simp [headersLoop, hm]
      | cons e rest' =>
        simp only [Bool.false_eq_true, if_false, if_true]
        rw [headersLoop_specified X req (e :: rest') (true, true) (by simp) hrest]
        simp [hm]

/-- The negative-header loop, started with `headerWithOutMatched = false`:
it ends with the flag set exactly when some entry matches, and then
`headerWithOutNeedMatch` is set too. -/
theorem withoutHeadersLoop_false (X : Lib) (req : Request) :
    ∀ (l : List (String × StringMatch)) (n : Bool),
      (withoutHeadersLoop X req l (false, n)).1 = l.any (headerEntryMatched X req) ∧
      ((withoutHeadersLoop X req l (false, n)).1 = true →
        (withoutHeadersLoop X req l (false, n)).2 = true)
  | [], n => by simp [withoutHeadersLoop]
  | (k, sm) :: rest, n => by
    rw [withoutHeadersLoop_cons]
    cases hE : sm.Empty
    · cases hm : headerEntryMatched X req (k, sm)
      · simpa [hm] using withoutHeadersLoop_false X req rest true
      · simp [hm]
    · have hm : headerEntryMatched X req (k, sm) = false := by
        cases hm : headerEntryMatched X req (k, sm)
        · rfl
        · have := headerEntryMatched_imp X req (k, sm) hm
          simp [hE] at this
      simpa [hm] using withoutHeadersLoop_false X req rest n

/-- The query-parameter loop, started with `paramMatched = true`: it ends with
the flag cleared exactly when some entry matches, and then `paramNeedMatch` is
set. -/
theorem queryParamsLoop_true (X : Lib) (req : Request) :
    ∀ (l : List (String × StringMatch)) (n : Bool),
      (queryParamsLoop X req l (true, n)).1 = !l.any (paramEntryMatched X req) ∧
      ((queryParamsLoop X req l (true, n)).1 = false →
        (queryParamsLoop X req l (true, n)).2 = true)
  | [], n => by simp [queryParamsLoop]
  | (k, sm) :: rest, n => by
    rw [queryParamsLoop_cons]
    cases hE : sm.Empty
    · cases hm : paramEntryMatched X req (k, sm)
      · simpa [hm] using queryParamsLoop_true X req rest true
      · simp [hm]
    · have hm : paramEntryMatched X req (k, sm) = false := by
        cases hm : paramEntryMatched X req (k, sm)
        · rfl
        · have := paramEntryMatched_imp X req (k, sm) hm
          simp [hE] at this
      simpa [hm] using queryParamsLoop_true X req rest n

theorem withoutHeadersPass_eq (X : Lib) (req : Request) (l : List (String × StringMatch)) :
    withoutHeadersPass X req l = !l.any (headerEntryMatched X req) := by
  have h := withoutHeadersLoop_false X req l (decide (l.length > 0))
  unfold withoutHeadersPass
  rw [← h.1]
  cases h1 : (withoutHeadersLoop X req l (false, decide (l.length > 0))).1
  · simp
  · simp [h.2 h1]

theorem queryParamsPass_eq (X : Lib) (req : Request) (l : List (String × StringMatch)) :
    queryParamsPass X req l = !l.any (paramEntryMatched X req) := by
  have h := queryParamsLoop_true X req l (decide (l.length > 0))
  unfold queryParamsPass
  rw [← h.1]
  cases h1 : (queryParamsLoop X req l (true, decide (l.length > 0))).1
  · simp [h.2 h1]
  · simp

theorem headersPass_specified (X : Lib) (req : Request) (l : List (String × StringMatch))
    (hne : l ≠ []) (hs : ∀ e ∈ l, e.2.Empty = false) :
    headersPass X req l = l.all (headerEntryMatched X req) := by
  unfold headersPass
  rw [headersLoop_specified X req l _ hne hs]
  simp

theorem headersPass_nil (X : Lib) (req : Request) : headersPass X req [] = true := by
  simp [headersPass, headersLoop]

/-! ## The nested loops of `Match` select the first satisfied clause -/

theorem selectFirst_append (X : Lib) (B : Balancers) (S : Maps) (service : Service)
    (req : Request) (l₁ l₂ : List (WeightRoundRobinBalancer × HttpMatchRequest)) :
    selectFirst X B S service req (l₁ ++ l₂) =
      match selectFirst X B S service req l₁ with
      | some o => some o
      | none => selectFirst X B S service req l₂ := by
  unfold selectFirst
  rw [List.find?_append]
  cases List.find? (fun p => clauseSatisfied X req p.2) l₁ <;> simp

theorem matchLoop_eq (X : Lib) (B : Balancers) (S : Maps) (service : Service) (req : Request) :
    ∀ (lb : Option WeightRoundRobinBalancer) (ms : List HttpMatchRequest),
      matchLoop X B S service req lb ms = selectFirst X B S service req (clausesOf lb ms)
  | none, [] => by simp [matchLoop, selectFirst, clausesOf]
  | some lb, [] => by simp [matchLoop, selectFirst, clausesOf]
  | none, m :: rest => by
    have ih := matchLoop_eq X B S service req none rest
    simp only [clausesOf] at ih ⊢
    cases hc : clauseSatisfied X req m <;> simp [matchLoop, hc, ih]
  | some lb, m :: rest => by
    have ih := matchLoop_eq X B S service req (some lb) rest
    simp only [clausesOf, selectFirst] at ih ⊢
    cases hc : clauseSatisfied X req m
    · simp [matchLoop, hc, ih, List.find?_cons]
    · simp [matchLoop, hc, List.find?_cons]

theorem httpLoop_eq (X : Lib) (B : Balancers) (S : Maps) (service : Service) (req : Request) :
    ∀ https : List (Option HttpRoute),
      httpLoop X B S service req https =
        selectFirst X B S service req (https.flatMap routeClauses)
  | [] => by simp [httpLoop, selectFirst]
  | none :: rest => by
    simp [httpLoop, routeClauses, httpLoop_eq X B S service req rest]
  | some httpRule :: rest => by
    have ih := httpLoop_eq X B S service req rest
    have hm := matchLoop_eq X B S service req httpRule.LoadBalancer httpRule.Match
    rw [List.flatMap_cons, selectFirst_append, ← ih]
    simp only [httpLoop, routeClauses]
    by_cases hlen : httpRule.Match.length > 0
    · simp only [hlen, if_true, hm]
    · have hnil : httpRule.Match = [] := by
        cases hM : httpRule.Match with
        | nil => rfl
        | cons a l => simp [hM] at hlen
      have : selectFirst X B S service req (clausesOf httpRule.LoadBalancer httpRule.Match)
          = none := by
        rw [hnil]
        cases httpRule.LoadBalancer <;> simp [selectFirst, clausesOf]
      simp only [hlen, if_false, this]

theorem ruleLoop_eq (X : Lib) (B : Balancers) (S : Maps) (service : Service) (req : Request) :
    ∀ rules : List RouteRule,
      ruleLoop X B S service req rules =
        selectFirst X B S service req (candidateClauses rules)
  | [] => by simp [ruleLoop, selectFirst, candidateClauses]
  | rule :: rest => by
    have ih := ruleLoop_eq X B S service req rest
    unfold candidateClauses at ih ⊢
    rw [List.flatMap_cons, selectFirst_append, ← ih, ← httpLoop_eq]
    simp only [ruleLoop]

theorem Match_of_rules (X : Lib) (B : Balancers) (S : Maps) (req : Request)
    (service : Service) (rules : List RouteRule)
    (hs : S.GetService req.Host = some service)
    (hr : S.GetRule service.Name = some rules) (hne : rules ≠ []) :
    Match X B S req = firstMatch X B S service req rules := by
  have hlen : ¬ rules.length ≤ 0 := by
    cases rules with
    | nil => exact absurd rfl hne
    | cons a l => simp
  unfold Match firstMatch
  simp only [hs, hr, Option.isNone_some, Option.getD_some, Bool.false_or, decide_eq_true_eq,
    hlen, if_false, ruleLoop_eq, selectFirst]
  cases List.find? (fun p => clauseSatisfied X req p.2) (candidateClauses rules) <;> rfl

theorem mem_candidateClauses (rules : List RouteRule)
    (p : WeightRoundRobinBalancer × HttpMatchRequest) (hp : p ∈ candidateClauses rules) :
    ∃ rule ∈ rules, ∃ httpRule, some httpRule ∈ rule.Http ∧ p.2 ∈ httpRule.Match := by
  unfold candidateClauses at hp
  rw [List.mem_flatMap] at hp
  obtain ⟨rule, hrule, hp⟩ := hp
  rw [List.mem_flatMap] at hp
  obtain ⟨r, hr, hp⟩ := hp
  cases r with
  | none => simp [routeClauses] at hp
  | some httpRule =>
    refine ⟨rule, hrule, httpRule, hr, ?_⟩
    simp only [routeClauses] at hp
    cases hlb : httpRule.LoadBalancer with
    | none => simp [hlb, clausesOf] at hp
    | some lb =>
      simp only [hlb, clausesOf, List.mem_map] at hp
      obtain ⟨m, hm, rfl⟩ := hp
      exact hm

theorem firstMatch_of_split (X : Lib) (B : Balancers) (S : Maps) (service : Service)
    (req : Request) (rules : List RouteRule)
    (pre post : List (WeightRoundRobinBalancer × HttpMatchRequest))
    (p : WeightRoundRobinBalancer × HttpMatchRequest)
    (hsplit : candidateClauses rules = pre ++ p :: post)
    (hpre : ∀ q ∈ pre, clauseSatisfied X req q.2 = false)
    (hp : clauseSatisfied X req p.2 = true) :
    firstMatch X B S service req rules = routeAction B S service p.1 := by
  have hfind : (candidateClauses rules).find? (fun q => clauseSatisfied X req q.2) = some p := by
    rw [hsplit, List.find?_append]
    have : List.find? (fun q => clauseSatisfied X req q.2) pre = none := by
      rw [List.find?_eq_none]
      intro q hq
      simp [hpre q hq]
    rw [this]
    simp [List.find?_cons, hp]
  simp [firstMatch, hfind]

theorem clause_uri_prefix_a (X : Lib) (req : Request) :
    clauseSatisfied X req { Uri := { Prefix := "/a" } } = HasPrefix req.RequestURI "/a" := by
  rw [clauseSatisfied_eq]
  simp [stringPass, headersPass, withoutHeadersPass, queryParamsPass, portPass, checkMatch,
    StringMatch.Empty, headersLoop, withoutHeadersLoop, queryParamsLoop]

theorem clause_uri_prefix_b (X : Lib) (req : Request) :
    clauseSatisfied X req { Uri := { Prefix := "/b" } } = HasPrefix req.RequestURI "/b" := by
  rw [clauseSatisfied_eq]
  simp [stringPass, headersPass, withoutHeadersPass, queryParamsPass, portPass, checkMatch,
    StringMatch.Empty, headersLoop, withoutHeadersLoop, queryParamsLoop]

theorem clause_method_post (X : Lib) (req : Request) :
    clauseSatisfied X req { Method := { Exact := "POST" } } = (req.Method == "POST") := by
  rw [clauseSatisfied_eq]
  simp [stringPass, headersPass, withoutHeadersPass, queryParamsPass, portPass, checkMatch,
    StringMatch.Empty, headersLoop, withoutHeadersLoop, queryParamsLoop]

/-! ## The claims -/

/-- C1: first match wins and clauses are OR-joined. When the request's host
resolves to a service with a non-empty rule list, `Match` returns the outcome
of the action of the first fully satisfied clause, the clauses being taken in
rule order, then route order, then clause order, among the routes that carry a
balancer (`no endpoint` when there is none); whatever follows that clause has
no influence on the result; and for a single route with the clauses
`uri prefix "/a"` and `uri prefix "/b"`, a request with uri `/a/x` and a
request with uri `/b/y` both get the route's action. -/
theorem C1_first_match_wins (X : Lib) (B : Balancers) (S : Maps) (req : Request)
    (service : Service) (rules : List RouteRule)
    (hs : S.GetService req.Host = some service)
    (hr : S.GetRule service.Name = some rules) (hne : rules ≠ []) :
    Match X B S req = firstMatch X B S service req rules ∧
    (∀ pre p post, candidateClauses rules = pre ++ p :: post →
      (∀ q ∈ pre, clauseSatisfied X req q.2 = false) →
      clauseSatisfied X req p.2 = true →
      Match X B S req = routeAction B S service p.1) ∧
    (∀ rule httpRule lb, rules = [rule] → rule.Http = [some httpRule] →
      httpRule.LoadBalancer = some lb →
      httpRule.Match = [{ Uri := { Prefix := "/a" } }, { Uri := { Prefix := "/b" } }] →
      (req.RequestURI = "/a/x" ∨ req.RequestURI = "/b/y") →
      Match X B S req = routeAction B S service lb) := by
  have hM := Match_of_rules X B S req service rules hs hr hne
  refine ⟨hM, ?_, ?_⟩
  · intro pre p post hsplit hpre hp
    rw [hM]
    exact firstMatch_of_split X B S service req rules pre post p hsplit hpre hp
  · intro rule httpRule lb hrules hhttp hlb hmatch huri
    rw [hM]
    have hcand : candidateClauses rules =
        [(lb, { Uri := { Prefix := "/a" } }), (lb, { Uri := { Prefix := "/b" } })] := by
      simp [candidateClauses, hrules, hhttp, routeClauses, clausesOf, hlb, hmatch]
    rcases huri with h | h
    · refine firstMatch_of_split X B S service req rules [] _ (lb, _) hcand ?_ ?_
      · simp
      · rw [clause_uri_prefix_a, h]
        decide
    · refine firstMatch_of_split X B S service req rules [(lb, _)] [] (lb, _) hcand ?_ ?_
      · intro q hq
        rw [List.mem_singleton] at hq
        subst hq
        rw [clause_uri_prefix_a, h]
        decide
      · rw [clause_uri_prefix_b, h]
        decide

/-- Witness of C1 on the snapshot of scenario S5: the requests with uri `/a/x`
and `/b/y` are routed to the first endpoint of cluster `c`, with no error. -/
theorem C1_first_match_wins_witness :
    Match sampleLib sampleBalancers (exMaps [exRuleAB]) { Host := "h", RequestURI := "/a/x" }
      = .ret (some E1) none ∧
    Match sampleLib sampleBalancers (exMaps [exRuleAB]) { Host := "h", RequestURI := "/b/y" }
      = .ret (some E1) none :=
  ⟨(C1_first_match_wins sampleLib sampleBalancers (exMaps [exRuleAB])
      { Host := "h", RequestURI := "/a/x" } (exService [exRuleAB]) [exRuleAB]
      (by decide) (by decide) (by decide)).1.trans (by decide),
   (C1_first_match_wins sampleLib sampleBalancers (exMaps [exRuleAB])
      { Host := "h", RequestURI := "/b/y" } (exService [exRuleAB]) [exRuleAB]
      (by decide) (by decide) (by decide)).1.trans (by decide)⟩

/-- C2: when the request's host resolves to a service with a non-empty rule
list and no clause of any route of any rule is fully satisfied by the request,
`Match` returns no endpoint and the error `no endpoint`, whatever the service
balancer and the endpoint index hold; so does a GET request against a single
route whose only clause is `method exact "POST"`. -/
theorem C2_no_clause_no_endpoint (X : Lib) (B : Balancers) (S : Maps) (req : Request)
    (service : Service) (rules : List RouteRule)
    (hs : S.GetService req.Host = some service)
    (hr : S.GetRule service.Name = some rules) (hne : rules ≠ []) :
    ((∀ rule ∈ rules, ∀ httpRule, some httpRule ∈ rule.Http →
        ∀ m ∈ httpRule.Match, clauseSatisfied X req m = false) →
      Match X B S req = .ret none (some "no endpoint")) ∧
    (∀ rule httpRule, rules = [rule] → rule.Http = [some httpRule] →
      httpRule.Match = [{ Method := { Exact := "POST" } }] → req.Method = "GET" →
      Match X B S req = .ret none (some "no endpoint")) := by
  have hM := Match_of_rules X B S req service rules hs hr hne
  have key : (∀ rule ∈ rules, ∀ httpRule, some httpRule ∈ rule.Http →
        ∀ m ∈ httpRule.Match, clauseSatisfied X req m = false) →
      Match X B S req = .ret none (some "no endpoint") := by
    intro hno
    have hfind : (candidateClauses rules).find? (fun q => clauseSatisfied X req q.2) = none := by
      rw [List.find?_eq_none]
      intro q hq
      obtain ⟨rule, hrule, httpRule, hmem, hm⟩ := mem_candidateClauses rules q hq
      simp [hno rule hrule httpRule hmem q.2 hm]
    rw [hM]
    simp [firstMatch, hfind]
  refine ⟨key, ?_⟩
  intro rule httpRule hrules hhttp hmatch hget
  apply key
  intro rule' hrule' httpRule' hmem m hm
  rw [hrules, List.mem_singleton] at hrule'
  subst hrule'
  rw [hhttp, List.mem_singleton] at hmem
  cases hmem
  rw [hmatch, List.mem_singleton] at hm
  subst hm
  rw [clause_method_post, hget]
  decide

/-- Witness of C2 on the snapshot of scenario S2, whose endpoint index and
service balancer are not empty: a GET request gets `no endpoint`. -/
theorem C2_no_clause_no_endpoint_witness :
    (exMaps [exRulePost]).GetEndpoints "s" = [some E1, some E2] ∧
    Match sampleLib sampleBalancers (exMaps [exRulePost]) { Host := "h", Method := "GET" }
      = .ret none (some "no endpoint") :=
  ⟨by decide,
   (C2_no_clause_no_endpoint sampleLib sampleBalancers (exMaps [exRulePost])
      { Host := "h", Method := "GET" } (exService [exRulePost]) [exRulePost]
      (by decide) (by decide) (by decide)).2 exRulePost
        (exRoute [{ Method := { Exact := "POST" } }]) rfl rfl rfl rfl⟩

theorem portPass_iff (req : Request) (m : HttpMatchRequest) :
    portPass req m = true ↔ (m.Port = 0 ∨ m.Port = req.Port) := by
  unfold portPass
  by_cases h0 : m.Port = 0
  · simp [h0]
  · simp [h0]

theorem stringPass_iff (X : Lib) (sm : StringMatch) (v : String) (ic : Bool) :
    stringPass X sm v ic = true ↔ (sm.Empty = false → (checkMatch X sm v ic).1 = true) := by
  cases hE : sm.Empty
  · rw [stringPass_of_specified X sm v ic hE]
    simp
  · rw [stringPass_of_empty X sm v ic hE]
    simp

theorem withoutHeadersPass_nil (X : Lib) (req : Request) :
    withoutHeadersPass X req [] = true := by
  simp [withoutHeadersPass, withoutHeadersLoop]

theorem queryParamsPass_nil (X : Lib) (req : Request) : queryParamsPass X req [] = true := by
  simp [queryParamsPass, queryParamsLoop]

/-- C3: the predicates of a clause are AND-joined. For a clause whose headers,
withoutHeaders and queryParams maps are empty, the clause is fully satisfied
exactly when each specified `StringMatch` among method, authority, scheme and
uri matches the request's `Method`, `Authority`, `URL.Scheme` and `RequestURI`
and the clause's port is 0 or equals the request's port; a clause with nothing
specified is satisfied by every request. -/
theorem C3_predicates_and_joined (X : Lib) (req : Request) (m : HttpMatchRequest)
    (hH : m.Headers = []) (hW : m.WithoutHeaders = []) (hQ : m.QueryParams = []) :
    (clauseSatisfied X req m = true ↔
      ((m.Method.Empty = false → (checkMatch X m.Method req.Method false).1 = true) ∧
       (m.Authority.Empty = false →
          (checkMatch X m.Authority req.Authority false).1 = true) ∧
       (m.Scheme.Empty = false → (checkMatch X m.Scheme req.URL.Scheme false).1 = true) ∧
       (m.Uri.Empty = false →
          (checkMatch X m.Uri req.RequestURI m.IgnoreUriCase).1 = true) ∧
       (m.Port = 0 ∨ m.Port = req.Port))) ∧
    (m.Method.Empty = true → m.Authority.Empty = true → m.Scheme.Empty = true →
      m.Uri.Empty = true → m.Port = 0 → clauseSatisfied X req m = true) := by
  have hiff : clauseSatisfied X req m = true ↔
      ((m.Method.Empty = false → (checkMatch X m.Method req.Method false).1 = true) ∧
       (m.Authority.Empty = false →
          (checkMatch X m.Authority req.Authority false).1 = true) ∧
       (m.Scheme.Empty = false → (checkMatch X m.Scheme req.URL.Scheme false).1 = true) ∧
       (m.Uri.Empty = false →
          (checkMatch X m.Uri req.RequestURI m.IgnoreUriCase).1 = true) ∧
       (m.Port = 0 ∨ m.Port = req.Port)) := by
    rw [clauseSatisfied_eq, hH, hW, hQ, headersPass_nil, withoutHeadersPass_nil,
      queryParamsPass_nil]
    simp only [Bool.and_true, Bool.and_eq_true, stringPass_iff, portPass_iff, and_assoc]
  refine ⟨hiff, ?_⟩
  intro h1 h2 h3 h4 h5
  rw [hiff]
  simp [h1, h2, h3, h4, h5]

/-- Witness of C3: the clause `method exact "POST"`, port 8080 is satisfied by a
POST request on port 8080, and the empty clause by that request too. -/
theorem C3_predicates_and_joined_witness :
    clauseSatisfied sampleLib { Method := "POST", Port := 8080 }
      { Method := { Exact := "POST" }, Port := 8080 } = true ∧
    clauseSatisfied sampleLib { Method := "POST", Port := 8080 } {} = true :=
  ⟨(C3_predicates_and_joined sampleLib { Method := "POST", Port := 8080 }
      { Method := { Exact := "POST" }, Port := 8080 } rfl rfl rfl).1.mpr (by decide),
   (C3_predicates_and_joined sampleLib { Method := "POST", Port := 8080 } {} rfl rfl rfl).2
      rfl rfl rfl rfl rfl⟩

/-- C4 (the code departs from the claim): the query-parameter loop clears
`paramMatched` when a parameter matches. A clause whose only predicate is
queryParams `v: exact "1"` is not satisfied by a request with `v=1` and is
satisfied by a request with `v=2`; in general the query-parameter predicate
passes exactly when no listed parameter matches. -/
theorem C4_query_params_inverted (X : Lib) :
    clauseSatisfied X { URL := { Query := [("v", "1")] } }
      { QueryParams := [("v", { Exact := "1" })] } = false ∧
    clauseSatisfied X { URL := { Query := [("v", "2")] } }
      { QueryParams := [("v", { Exact := "1" })] } = true ∧
    (∀ (req : Request) (params : List (String × StringMatch)),
      queryParamsPass X req params = !params.any (paramEntryMatched X req)) := by
  refine ⟨?_, ?_, fun req params => queryParamsPass_eq X req params⟩
  · rw [clauseSatisfied_eq, queryParamsPass_eq]
    simp [paramEntryMatched, checkMatch, StringMatch.Empty, Request.QueryGet, List.lookup]
  · rw [clauseSatisfied_eq, queryParamsPass_eq]
    simp [paramEntryMatched, checkMatch, StringMatch.Empty, Request.QueryGet, List.lookup,
      stringPass, headersPass, withoutHeadersPass, portPass, headersLoop, withoutHeadersLoop]

theorem all_perm_eq {α : Type} (f : α → Bool) {l₁ l₂ : List α} (h : l₁.Perm l₂) :
    l₁.all f = l₂.all f := by
  rw [Bool.eq_iff_iff, List.all_eq_true, List.all_eq_true]
  exact ⟨fun H x hx => H x (h.mem_iff.mpr hx), fun H x hx => H x (h.mem_iff.mp hx)⟩

theorem any_perm_eq {α : Type} (f : α → Bool) {l₁ l₂ : List α} (h : l₁.Perm l₂) :
    l₁.any f = l₂.any f := by
  rw [Bool.eq_iff_iff, List.any_eq_true, List.any_eq_true]
  exact ⟨fun ⟨x, hx, hf⟩ => ⟨x, h.mem_iff.mp hx, hf⟩, fun ⟨x, hx, hf⟩ => ⟨x, h.mem_iff.mpr hx, hf⟩⟩

theorem clauseSatisfied_headers (X : Lib) (req : Request) (m : HttpMatchRequest) :
    clauseSatisfied X req m =
      (headersPass X req m.Headers && clauseSatisfied X req { m with Headers := [] }) := by
  rw [clauseSatisfied_eq, clauseSatisfied_eq X req { m with Headers := [] }, headersPass_nil]
  simp only [portPass, Bool.and_true]
  ac_rfl

theorem clauseSatisfied_withoutHeaders (X : Lib) (req : Request) (m : HttpMatchRequest) :
    clauseSatisfied X req m =
      (withoutHeadersPass X req m.WithoutHeaders &&
        clauseSatisfied X req { m with WithoutHeaders := [] }) := by
  rw [clauseSatisfied_eq, clauseSatisfied_eq X req { m with WithoutHeaders := [] },
    withoutHeadersPass_nil]
  simp only [portPass, Bool.and_true]
  ac_rfl

/-- C5: headers are AND-joined. For a non-empty headers map whose entries are
all specified, the headers predicate passes exactly when every listed header's
`StringMatch` matches `req.Header.Get(h)`; a header missing from the request is
compared as the empty string; the outcome is the same for every order in which
the entries are visited; and the clause is satisfied exactly when the headers
predicate passes and the clause without its headers is satisfied. -/
theorem C5_headers_and_joined (X : Lib) (req : Request)
    (headers : List (String × StringMatch))
    (hne : headers ≠ []) (hspec : ∀ e ∈ headers, e.2.Empty = false) :
    (headersPass X req headers = true ↔
      ∀ e ∈ headers, (checkMatch X e.2 (req.HeaderGet e.1) false).1 = true) ∧
    (∀ e ∈ headers, req.Header.lookup e.1 = none →
      checkMatch X e.2 (req.HeaderGet e.1) false = checkMatch X e.2 "" false) ∧
    (∀ visited : List (String × StringMatch), headers.Perm visited →
      headersPass X req visited = headersPass X req headers) ∧
    (∀ m : HttpMatchRequest, m.Headers = headers →
      clauseSatisfied X req m =
        (headersPass X req headers && clauseSatisfied X req { m with Headers := [] })) := by
  refine ⟨?_, ?_, ?_, ?_⟩
  · rw [headersPass_specified X req headers hne hspec, List.all_eq_true]
    rfl
  · intro e _ hmiss
    simp [Request.HeaderGet, hmiss]
  · intro visited hperm
    have hne' : visited ≠ [] := by
      intro h
      rw [h] at hperm
      exact hne hperm.eq_nil
    have hspec' : ∀ e ∈ visited, e.2.Empty = false :=
      fun e he => hspec e (hperm.mem_iff.mpr he)
    rw [headersPass_specified X req headers hne hspec,
      headersPass_specified X req visited hne' hspec']
    exact (all_perm_eq _ hperm).symm
  · intro m hm
    rw [← hm]
    exact clauseSatisfied_headers X req m

/-- Witness of C5: with the headers `a: exact "1"` and `b: prefix "x"`, a
request carrying `a: 1` and `b: xy` passes the headers predicate. -/
theorem C5_headers_and_joined_witness :
    headersPass sampleLib { Header := [("a", "1"), ("b", "xy")] }
      [("a", { Exact := "1" }), ("b", { Prefix := "x" })] = true :=
  (C5_headers_and_joined sampleLib { Header := [("a", "1"), ("b", "xy")] }
    [("a", { Exact := "1" }), ("b", { Prefix := "x" })] (by decide) (by decide)).1.mpr
    (by decide)

/-- C6: negative headers. If an entry of withoutHeaders has a specified
`StringMatch` that matches `req.Header.Get(h)`, the clause is not satisfied,
whatever its other predicates; if no specified entry matches, the clause is
satisfied exactly when it is satisfied with withoutHeaders emptied; and the
outcome is the same for every order in which the entries are visited. -/
theorem C6_without_headers (X : Lib) (req : Request) (m : HttpMatchRequest) :
    ((∃ e ∈ m.WithoutHeaders, e.2.Empty = false ∧
        (checkMatch X e.2 (req.HeaderGet e.1) false).1 = true) →
      clauseSatisfied X req m = false) ∧
    ((∀ e ∈ m.WithoutHeaders, e.2.Empty = false →
        (checkMatch X e.2 (req.HeaderGet e.1) false).1 = false) →
      clauseSatisfied X req m = clauseSatisfied X req { m with WithoutHeaders := [] }) ∧
    (∀ visited : List (String × StringMatch), m.WithoutHeaders.Perm visited →
      clauseSatisfied X req { m with WithoutHeaders := visited } = clauseSatisfied X req m) := by
  refine ⟨?_, ?_, ?_⟩
  · rintro ⟨e, he, _, hmatch⟩
    rw [clauseSatisfied_withoutHeaders, withoutHeadersPass_eq]
    have : m.WithoutHeaders.any (headerEntryMatched X req) = true :=
      List.any_eq_true.mpr ⟨e, he, hmatch⟩
    simp [this]
  · intro hno
    rw [clauseSatisfied_withoutHeaders, withoutHeadersPass_eq]
    have : m.WithoutHeaders.any (headerEntryMatched X req) = false := by
      rw [List.any_eq_false]
      intro e he hmatch
      have hE := headerEntryMatched_imp X req e hmatch
      have := hno e he hE
      unfold headerEntryMatched at hmatch
      rw [this] at hmatch
      exact absurd hmatch (by decide)
    simp [this]
  · intro visited hperm
    rw [clauseSatisfied_withoutHeaders X req m,
      clauseSatisfied_withoutHeaders X req { m with WithoutHeaders := visited },
      withoutHeadersPass_eq, withoutHeadersPass_eq]
    simp only [any_perm_eq _ hperm]

/-- Witness of C6: the clause `uri prefix "/a"` with the negative header
`x: exact "1"` is not satisfied by a request for `/a/x` that carries `x: 1`. -/
theorem C6_without_headers_witness :
    clauseSatisfied sampleLib { RequestURI := "/a/x", Header := [("x", "1")] }
      { Uri := { Prefix := "/a" }, WithoutHeaders := [("x", { Exact := "1" })] } = false :=
  (C6_without_headers sampleLib { RequestURI := "/a/x", Header := [("x", "1")] }
    { Uri := { Prefix := "/a" }, WithoutHeaders := [("x", { Exact := "1" })] }).1
    ⟨("x", { Exact := "1" }), by decide, by decide, by decide⟩

/-- C7 (the code departs from the claim): in the header loop the assignment
`headerMatched = matched` is made for an unspecified entry too. A clause whose
only content is headers `x: {}` is satisfied by no request, although the clause
with that entry removed is satisfied by every request; and with the entries
`x: {}` and `y: exact "1"` a request carrying `y: 1` satisfies the clause when
`x` is visited first and does not when `x` is visited last. -/
theorem C7_unspecified_header_fails (X : Lib) (req : Request) :
    clauseSatisfied X req { Headers := [("x", {})] } = false ∧
    clauseSatisfied X req {} = true ∧
    clauseSatisfied X { Header := [("y", "1")] }
      { Headers := [("x", {}), ("y", { Exact := "1" })] } = true ∧
    clauseSatisfied X { Header := [("y", "1")] }
      { Headers := [("y", { Exact := "1" }), ("x", {})] } = false := by
  refine ⟨?_, ?_, ?_, ?_⟩ <;>
  · rw [clauseSatisfied_eq]
    simp [stringPass, headersPass, withoutHeadersPass, queryParamsPass, portPass, checkMatch,
      StringMatch.Empty, headersLoop, withoutHeadersLoop, queryParamsLoop, Request.HeaderGet,
      List.lookup]

/-- C8: the precedence of `StringMatch` is exact, then prefix, then regex. With
`ignoreCase` false, `checkMatch` reports `needMatch = true` whenever a field is
non-empty; `isMatched` is `value == exact` when exact is non-empty, whatever
prefix and regex hold; otherwise it is `HasPrefix value prefix` when prefix is
non-empty, whatever regex holds; the regex decides only when exact and prefix
are both empty, and when one of them is non-empty the result is the same for
every regex engine. -/
theorem C8_string_match_precedence (X : Lib) (sm : StringMatch) (v : String) :
    ((sm.Exact ≠ "" ∨ sm.Prefix ≠ "" ∨ sm.Regex ≠ "") →
      (checkMatch X sm v false).2 = true) ∧
    (sm.Exact ≠ "" → (checkMatch X sm v false).1 = (v == sm.Exact)) ∧
    (sm.Exact = "" → sm.Prefix ≠ "" → (checkMatch X sm v false).1 = HasPrefix v sm.Prefix) ∧
    (sm.Exact = "" → sm.Prefix = "" → sm.Regex ≠ "" →
      (checkMatch X sm v false).1 = (X.MatchString sm.Regex v == some true)) ∧
    ((sm.Exact ≠ "" ∨ sm.Prefix ≠ "") → ∀ engine : String → String → Option Bool,
      checkMatch { X with MatchString := engine } sm v false = checkMatch X sm v false) := by
  refine ⟨?_, ?_, ?_, ?_, ?_⟩
  · intro h
    rw [checkMatch_snd]
    rcases h with h | h | h <;> simp [StringMatch.Empty, h]
  · intro h
    simp [checkMatch, StringMatch.Empty, h]
  · intro h1 h2
    simp [checkMatch, StringMatch.Empty, h1, h2]
  · intro h1 h2 h3
    cases hr : X.MatchString sm.Regex v with
    | none => simp [checkMatch, StringMatch.Empty, h1, h2, h3, hr]
    | some b => cases b <;> simp [checkMatch, StringMatch.Empty, h1, h2, h3, hr]
  · intro h engine
    rcases h with h | h
    · simp [checkMatch, StringMatch.Empty, h]
    · by_cases h1 : sm.Exact = ""
      · simp [checkMatch, StringMatch.Empty, h, h1]
      · simp [checkMatch, StringMatch.Empty, h1]

/-- Witness of C8: with exact `/a`, prefix `/` and regex `.*` all set, the
value `/a/x` is not matched, the exact field deciding. -/
theorem C8_string_match_precedence_witness :
    (checkMatch sampleLib { Exact := "/a", Prefix := "/", Regex := ".*" } "/a/x" false).2 = true ∧
    (checkMatch sampleLib { Exact := "/a", Prefix := "/", Regex := ".*" } "/a/x" false).1
      = ("/a/x" == "/a") :=
  ⟨(C8_string_match_precedence sampleLib { Exact := "/a", Prefix := "/", Regex := ".*" }
      "/a/x").1 (Or.inl (by decide)),
   (C8_string_match_precedence sampleLib { Exact := "/a", Prefix := "/", Regex := ".*" }
      "/a/x").2.1 (by decide)⟩

theorem checkMatch_false_lower (X : Lib) (lower : String → String) (sm : StringMatch)
    (v : String) : checkMatch { X with ToLower := lower } sm v false = checkMatch X sm v false := by
  simp [checkMatch]

theorem headersLoop_congr (X Y : Lib) (req : Request)
    (h : ∀ sm v, checkMatch X sm v false = checkMatch Y sm v false) :
    ∀ (l : List (String × StringMatch)) (st : Bool × Bool),
      headersLoop X req l st = headersLoop Y req l st
  | [], _ => by simp [headersLoop]
  | (k, sm) :: rest, st => by
    rw [headersLoop_cons, headersLoop_cons]
    simp only [headerEntryMatched, h, headersLoop_congr X Y req h rest]

theorem withoutHeadersLoop_congr (X Y : Lib) (req : Request)
    (h : ∀ sm v, checkMatch X sm v false = checkMatch Y sm v false) :
    ∀ (l : List (String × StringMatch)) (st : Bool × Bool),
      withoutHeadersLoop X req l st = withoutHeadersLoop Y req l st
  | [], _ => by simp [withoutHeadersLoop]
  | (k, sm) :: rest, st => by
    rw [withoutHeadersLoop_cons, withoutHeadersLoop_cons]
    simp only [headerEntryMatched, h, withoutHeadersLoop_congr X Y req h rest]

theorem queryParamsLoop_congr (X Y : Lib) (req : Request)
    (h : ∀ sm v, checkMatch X sm v false = checkMatch Y sm v false) :
    ∀ (l : List (String × StringMatch)) (st : Bool × Bool),
      queryParamsLoop X req l st = queryParamsLoop Y req l st
  | [], _ => by simp [queryParamsLoop]
  | (k, sm) :: rest, st => by
    rw [queryParamsLoop_cons, queryParamsLoop_cons]
    simp only [paramEntryMatched, h, queryParamsLoop_congr X Y req h rest]

theorem clauseSatisfied_uri (X : Lib) (req : Request) (m : HttpMatchRequest) :
    clauseSatisfied X req m =
      (stringPass X m.Uri req.RequestURI m.IgnoreUriCase &&
        clauseSatisfied X req { m with Uri := {} }) := by
  rw [clauseSatisfied_eq, clauseSatisfied_eq X req { m with Uri := {} }]
  have : stringPass X {} req.RequestURI m.IgnoreUriCase = true :=
    stringPass_of_empty X {} req.RequestURI m.IgnoreUriCase (by decide)
  simp only [portPass, this, Bool.and_true]
  ac_rfl

theorem clauseSatisfied_no_uri (X : Lib) (lower : String → String) (req : Request)
    (m : HttpMatchRequest) (b : Bool) :
    clauseSatisfied { X with ToLower := lower } req { m with Uri := {}, IgnoreUriCase := b } =
      clauseSatisfied X req { m with Uri := {} } := by
  have hc := checkMatch_false_lower X lower
  have hE : ∀ (Y : Lib) (c : Bool), stringPass Y {} req.RequestURI c = true :=
    fun Y c => stringPass_of_empty Y {} req.RequestURI c (by decide)
  rw [clauseSatisfied_eq, clauseSatisfied_eq X req { m with Uri := {} }]
  simp only [stringPass, headersPass, withoutHeadersPass, queryParamsPass, portPass, hc,
    headersLoop_congr _ X req hc, withoutHeadersLoop_congr _ X req hc,
    queryParamsLoop_congr _ X req hc]
  have h1 := hE { X with ToLower := lower } b
  have h2 := hE X m.IgnoreUriCase
  simp only [stringPass] at h1 h2
  rw [h1, h2]

/-- C9: `ignoreUriCase` lowercases both sides of the uri predicate and only of
the uri predicate. With `ignoreUriCase` set, an exact uri predicate compares
`ToLower RequestURI` with `ToLower exact` and a prefix uri predicate tests
`ToLower prefix` as a prefix of `ToLower RequestURI`; the clause is satisfied
exactly when the uri predicate passes and the clause without its uri is
satisfied; `/API` is accepted against prefix `/api` and `/api` against prefix
`/API`; and the clause without its uri (method, authority, scheme, headers,
negative headers, query parameters, port) has the same outcome for every value
of `ignoreUriCase` and every lower-casing function, `POST` not accepting
`post`. -/
theorem C9_ignore_uri_case (X : Lib) (req : Request) (m : HttpMatchRequest) :
    (m.IgnoreUriCase = true → m.Uri.Exact ≠ "" →
      stringPass X m.Uri req.RequestURI m.IgnoreUriCase =
        (X.ToLower req.RequestURI == X.ToLower m.Uri.Exact)) ∧
    (m.IgnoreUriCase = true → m.Uri.Exact = "" → m.Uri.Prefix ≠ "" →
      stringPass X m.Uri req.RequestURI m.IgnoreUriCase =
        HasPrefix (X.ToLower req.RequestURI) (X.ToLower m.Uri.Prefix)) ∧
    clauseSatisfied X req m =
      (stringPass X m.Uri req.RequestURI m.IgnoreUriCase &&
        clauseSatisfied X req { m with Uri := {} }) ∧
    (X.ToLower "/API" = "/api" → X.ToLower "/api" = "/api" →
      clauseSatisfied X { RequestURI := "/API" }
        { Uri := { Prefix := "/api" }, IgnoreUriCase := true } = true ∧
      clauseSatisfied X { RequestURI := "/api" }
        { Uri := { Prefix := "/API" }, IgnoreUriCase := true } = true) ∧
    (∀ (b : Bool) (lower : String → String),
      clauseSatisfied { X with ToLower := lower } req
          { m with Uri := {}, IgnoreUriCase := b } =
        clauseSatisfied X req { m with Uri := {} }) ∧
    clauseSatisfied X { Method := "post" }
      { Method := { Exact := "POST" }, IgnoreUriCase := true } = false := by
  refine ⟨?_, ?_, clauseSatisfied_uri X req m, ?_,
    fun b lower => clauseSatisfied_no_uri X lower req m b, ?_⟩
  · intro hi he
    simp [stringPass, checkMatch, StringMatch.Empty, hi, he]
  · intro hi he hp
    simp [stringPass, checkMatch, StringMatch.Empty, hi, he, hp]
  · intro h1 h2
    constructor
    · rw [clauseSatisfied_eq]
      simp [stringPass, headersPass, withoutHeadersPass, queryParamsPass, portPass, checkMatch,
        StringMatch.Empty, headersLoop, withoutHeadersLoop, queryParamsLoop, h1, h2, HasPrefix]
    · rw [clauseSatisfied_eq]
      simp [stringPass, headersPass, withoutHeadersPass, queryParamsPass, portPass, checkMatch,
        StringMatch.Empty, headersLoop, withoutHeadersLoop, queryParamsLoop, h1, h2, HasPrefix]
  · rw [clauseSatisfied_eq]
    simp [stringPass, checkMatch, StringMatch.Empty]

/-- Witness of C9 with the lower-casing of ASCII letters: `/API` is accepted
against prefix `/api` and `/api` against prefix `/API`. -/
theorem C9_ignore_uri_case_witness :
    clauseSatisfied sampleLib { RequestURI := "/API" }
      { Uri := { Prefix := "/api" }, IgnoreUriCase := true } = true ∧
    clauseSatisfied sampleLib { RequestURI := "/api" }
      { Uri := { Prefix := "/API" }, IgnoreUriCase := true } = true :=
  (C9_ignore_uri_case sampleLib {} {}).2.2.2.1 (by decide) (by decide)

theorem routeAction_passThrough (B : Balancers) (S : Maps) (service : Service)
    (lb : WeightRoundRobinBalancer) (cluster : String)
    (clusterMap : GoMap (Option Cluster)) (clusterV : Cluster) (balancer : LoadBalancer)
    (hpick : B.SelectCluster lb "" = .ok cluster)
    (hmap : S.Clusters.lookup service.Name = some clusterMap)
    (hc : clusterMap.lookup cluster = some (some clusterV))
    (hbal : clusterV.TrafficPolicy.LoadBalancer.LoadBalancer = some balancer)
    (hpt : clusterV.TrafficPolicy.LoadBalancer.Simple = PASSTHROUGH) :
    routeAction B S service lb = .ret none (some "PassThrough") := by
  simp [routeAction, hpick, hmap, hc, hbal, hpt]

/-! ## Claims on the balancers and on the service lookup -/

theorem routeAction_of_found (B : Balancers) (S : Maps) (service : Service)
    (lb : WeightRoundRobinBalancer) (cluster : String)
    (clusterMap : GoMap (Option Cluster)) (clusterV : Cluster) (balancer : LoadBalancer)
    (hpick : B.SelectCluster lb "" = .ok cluster)
    (hmap : S.Clusters.lookup service.Name = some clusterMap)
    (hc : clusterMap.lookup cluster = some (some clusterV))
    (hbal : clusterV.TrafficPolicy.LoadBalancer.LoadBalancer = some balancer)
    (hnpt : clusterV.TrafficPolicy.LoadBalancer.Simple ≠ PASSTHROUGH) :
    routeAction B S service lb = .ret (B.Select balancer clusterV.Endpoints) none := by
  simp [routeAction, hpick, hmap, hc, hbal, hnpt]

/-- C10 (the code departs from the claim): the variable `PASSTHROUGH` is
declared without a value, so it is the empty string and not the text
`PASSTHROUGH` of a configuration. For a cluster configured
`simple: PASSTHROUGH` the builder falls to the default case and gives the
cluster a round-robin endpoint balancer, the test `Simple == PASSTHROUGH` of
`Match` is false, and the action returns what the cluster's balancer selects,
with no error; so does `Match` on the snapshot loaded from the configuration
of scenario S4, which returns the endpoint `E1` and no `PassThrough`. -/
theorem C10_configured_pass_through_not_signalled :
    PASSTHROUGH = "" ∧
    (initClusterBalancer exClusterPassThrough).TrafficPolicy.LoadBalancer.LoadBalancer
      = some .RoundRobinLoadBalancer ∧
    (∀ (B : Balancers) (S : Maps) (service : Service) (lb : WeightRoundRobinBalancer)
        (cluster : String) (clusterMap : GoMap (Option Cluster)) (clusterV : Cluster)
        (balancer : LoadBalancer),
      B.SelectCluster lb "" = .ok cluster →
      S.Clusters.lookup service.Name = some clusterMap →
      clusterMap.lookup cluster = some (some clusterV) →
      clusterV.TrafficPolicy.LoadBalancer.LoadBalancer = some balancer →
      clusterV.TrafficPolicy.LoadBalancer.Simple = "PASSTHROUGH" →
      routeAction B S service lb = .ret (B.Select balancer clusterV.Endpoints) none) ∧
    (LoadServiceData {} exConfigPassThrough).map
        (fun m => Match sampleLib sampleBalancers m { Host := "h", RequestURI := "/a/x" })
      = some (.ret (some E1) none) := by
  refine ⟨rfl, by decide, ?_, by decide⟩
  intro B S service lb cluster clusterMap clusterV balancer hpick hmap hc hbal hsimple
  exact routeAction_of_found B S service lb cluster clusterMap clusterV balancer
    hpick hmap hc hbal (by rw [hsimple]; decide)

/-- C11 (the code departs from the claim): the variables `ROUND_ROBIN`,
`LEAST_CONN`, `RANDOM` and `PASSTHROUGH` are declared without a value, so all
four are the empty string. A cluster whose `loadBalancer` settings are left
empty does get a round-robin endpoint balancer from the builder, but its
`Simple` equals `PASSTHROUGH`: the action of `Match` answers it with
`PassThrough`, and so does `Match` on the snapshot loaded from such a
configuration. -/
theorem C11_default_cluster_gets_pass_through :
    (∀ cluster : Cluster, cluster.TrafficPolicy.LoadBalancer.LoadBalancer = none →
      cluster.TrafficPolicy.LoadBalancer.Simple = "" →
      (initClusterBalancer cluster).TrafficPolicy.LoadBalancer.LoadBalancer
        = some .RoundRobinLoadBalancer) ∧
    (∀ (B : Balancers) (S : Maps) (service : Service) (lb : WeightRoundRobinBalancer)
        (cluster : String) (clusterMap : GoMap (Option Cluster)) (clusterV : Cluster)
        (balancer : LoadBalancer),
      B.SelectCluster lb "" = .ok cluster →
      S.Clusters.lookup service.Name = some clusterMap →
      clusterMap.lookup cluster = some (some clusterV) →
      clusterV.TrafficPolicy.LoadBalancer.LoadBalancer = some balancer →
      clusterV.TrafficPolicy.LoadBalancer.Simple = "" →
      routeAction B S service lb = .ret none (some "PassThrough")) ∧
    (LoadServiceData {} exConfigDefault).map
        (fun m => (m.Clusters.lookup "s", Match sampleLib sampleBalancers m
          { Host := "h", RequestURI := "/a/x" }))
      = some (some (some [("c", some
          { exClusterDefault with
            TrafficPolicy := { LoadBalancer := { LoadBalancer := some .RoundRobinLoadBalancer } } })]),
          .ret none (some "PassThrough")) := by
  refine ⟨?_, ?_, by decide⟩
  · intro cluster hlb hsimple
    simp [initClusterBalancer, hlb, hsimple, ROUND_ROBIN]
  · intro B S service lb cluster clusterMap clusterV balancer hpick hmap hc hbal hsimple
    exact routeAction_passThrough B S service lb cluster clusterMap clusterV balancer
      hpick hmap hc hbal (by rw [hsimple]; rfl)

/-- C12 (the code departs from the claim): the action of `Match` returns
whatever the cluster's balancer selects, with a nil error, and never tests the
endpoint list. When a clause is selected and the chosen cluster is found, is
not pass-through and has no endpoint, `Match` returns the result of `Select` on
the empty list with a nil error, not `no endpoint`; with a balancer that gives
a nil endpoint there, `Match` returns a nil endpoint and a nil error. -/
theorem C12_empty_cluster_no_error :
    (∀ (X : Lib) (B : Balancers) (S : Maps) (req : Request) (service : Service)
        (rules : List RouteRule) (lb : WeightRoundRobinBalancer) (m : HttpMatchRequest)
        (cluster : String) (clusterMap : GoMap (Option Cluster)) (clusterV : Cluster)
        (balancer : LoadBalancer),
      S.GetService req.Host = some service →
      S.GetRule service.Name = some rules → rules ≠ [] →
      (candidateClauses rules).find? (fun p => clauseSatisfied X req p.2) = some (lb, m) →
      B.SelectCluster lb "" = .ok cluster →
      S.Clusters.lookup service.Name = some clusterMap →
      clusterMap.lookup cluster = some (some clusterV) →
      clusterV.TrafficPolicy.LoadBalancer.LoadBalancer = some balancer →
      clusterV.TrafficPolicy.LoadBalancer.Simple ≠ PASSTHROUGH →
      clusterV.Endpoints = [] →
      Match X B S req = .ret (B.Select balancer []) none ∧
      Match X B S req ≠ .ret none (some "no endpoint")) ∧
    Match sampleLib sampleBalancers (exMapsWith [exRuleAB] exClusterEmpty)
      { Host := "h", RequestURI := "/a/x" } = .ret none none := by
  refine ⟨?_, by decide⟩
  intro X B S req service rules lb m cluster clusterMap clusterV balancer hs hr hne hsel hpick
    hmap hc hbal hnpt hempty
  have h : Match X B S req = .ret (B.Select balancer []) none := by
    rw [Match_of_rules X B S req service rules hs hr hne]
    simp only [firstMatch, hsel]
    rw [routeAction_of_found B S service lb cluster clusterMap clusterV balancer
      hpick hmap hc hbal hnpt, hempty]
  refine ⟨h, ?_⟩
  rw [h]
  intro hcontra
  have := (Outcome.ret.inj hcontra).2
  simp at this

theorem Match_of_no_rules (X : Lib) (B : Balancers) (S : Maps) (req : Request)
    (service : Service)
    (hs : S.GetService req.Host = some service)
    (hr : S.GetRule service.Name = none ∨ S.GetRule service.Name = some []) :
    Match X B S req =
      if (S.GetEndpoints service.Name).length ≤ 0 then .ret none (some "no cluster")
      else
        match service.LB with
        | none => .nilDeref
        | some balancer => .ret (B.Select balancer (S.GetEndpoints service.Name)) none := by
  unfold Match
  rcases hr with hr | hr <;> simp [hs, hr]

/-- C13: the fallback without rules. When the request's host resolves to a
service that has no rules (no rule list registered under its name, or an empty
one), `Match` returns `no cluster` when the service's endpoint index is empty,
and otherwise, the service-level balancer being `balancer`, it returns with no
error what `Select` of that balancer gives on the values of
`endpointsIndex[service.name]`; no clause is evaluated, the result being the
same for every instance of the library functions. -/
theorem C13_no_rules_fallback (X : Lib) (B : Balancers) (S : Maps) (req : Request)
    (service : Service)
    (hs : S.GetService req.Host = some service)
    (hr : S.GetRule service.Name = none ∨ S.GetRule service.Name = some []) :
    (S.GetEndpoints service.Name = [] → Match X B S req = .ret none (some "no cluster")) ∧
    (∀ balancer, service.LB = some balancer → S.GetEndpoints service.Name ≠ [] →
      Match X B S req = .ret (B.Select balancer (S.GetEndpoints service.Name)) none) ∧
    S.GetEndpoints service.Name =
      ((S.Endpoints.lookup service.Name).getD none).entries.map Prod.snd ∧
    (∀ Y : Lib, Match Y B S req = Match X B S req) := by
  have hM := Match_of_no_rules X B S req service hs hr
  refine ⟨?_, ?_, rfl, ?_⟩
  · intro he
    rw [hM, he]
    simp
  · intro balancer hlb hne
    have hlen : ¬ (S.GetEndpoints service.Name).length ≤ 0 := by
      cases hE : S.GetEndpoints service.Name with
      | nil => exact absurd hE hne
      | cons a l => simp
    rw [hM, hlb]
    simp only [hlen, if_false]
  · intro Y
    rw [hM, Match_of_no_rules Y B S req service hs hr]

/-- Witness of C13 on the snapshot of scenario S1 (no rules): the request for
host `h` gets the first endpoint of the endpoint index, with no error. -/
theorem C13_no_rules_fallback_witness :
    Match sampleLib sampleBalancers (exMaps []) { Host := "h" } = .ret (some E1) none :=
  ((C13_no_rules_fallback sampleLib sampleBalancers (exMaps []) { Host := "h" }
      (exService []) (by decide) (Or.inr (by decide))).2.1
    .RoundRobinLoadBalancer rfl (by decide)).trans (by decide)

theorem routeAction_cases (B : Balancers) (S : Maps) (service : Service)
    (lb : WeightRoundRobinBalancer) :
    (∃ err, B.SelectCluster lb "" = .error err ∧
      routeAction B S service lb = .ret none (some err)) ∨
    routeAction B S service lb = .ret none (some "service no cluster") ∨
    routeAction B S service lb = .ret none (some "cluster not found") ∨
    routeAction B S service lb = .ret none (some "PassThrough") ∨
    ∃ e, routeAction B S service lb = .ret e none := by
  cases hsel : B.SelectCluster lb "" with
  | error err => exact Or.inl ⟨err, rfl, by simp [routeAction, hsel]⟩
  | ok cluster =>
    cases hmap : S.Clusters.lookup service.Name with
    | none => exact Or.inr (Or.inl (by simp [routeAction, hsel, hmap]))
    | some clusterMap =>
      cases hc : clusterMap.lookup cluster with
      | none => exact Or.inr (Or.inr (Or.inl (by simp [routeAction, hsel, hmap, hc])))
      | some c =>
        cases c with
        | none => exact Or.inr (Or.inr (Or.inl (by simp [routeAction, hsel, hmap, hc])))
        | some clusterV =>
          cases hb : clusterV.TrafficPolicy.LoadBalancer.LoadBalancer with
          | none =>
            exact Or.inr (Or.inr (Or.inl (by simp [routeAction, hsel, hmap, hc, hb])))
          | some balancer =>
            by_cases hp : clusterV.TrafficPolicy.LoadBalancer.Simple = PASSTHROUGH
            · exact Or.inr (Or.inr (Or.inr (Or.inl
                (by simp [routeAction, hsel, hmap, hc, hb, hp]))))
            · exact Or.inr (Or.inr (Or.inr (Or.inr
                ⟨_, routeAction_of_found B S service lb cluster clusterMap clusterV balancer
                  hsel hmap hc hb hp⟩)))

theorem Match_ne_no_service (X : Lib) (B : Balancers) (S : Maps) (req : Request)
    (service : Service) (hs : S.GetService req.Host = some service)
    (hB : ∀ lb, B.SelectCluster lb "" ≠ .error "no service") :
    Match X B S req ≠ .ret none (some "no service") := by
  by_cases hr : S.GetRule service.Name = none ∨ S.GetRule service.Name = some []
  · rw [Match_of_no_rules X B S req service hs hr]
    split
    · simp
    · cases service.LB <;> simp
  · have hrules : ∃ rules, S.GetRule service.Name = some rules ∧ rules ≠ [] := by
      cases h : S.GetRule service.Name with
      | none => exact absurd (Or.inl h) hr
      | some rules =>
        refine ⟨rules, rfl, ?_⟩
        intro hnil
        exact hr (Or.inr (by rw [h, hnil]))
    obtain ⟨rules, hget, hne⟩ := hrules
    rw [Match_of_rules X B S req service rules hs hget hne]
    unfold firstMatch
    cases List.find? (fun p => clauseSatisfied X req p.2) (candidateClauses rules) with
    | none => simp
    | some p =>
      simp only
      rcases routeAction_cases B S service p.1 with ⟨err, herr, h⟩ | h | h | h | ⟨e, h⟩
      · rw [h]
        intro hc
        have := (Outcome.ret.inj hc).2
        simp only [Option.some.injEq] at this
        exact hB p.1 (by rw [herr, this])
      all_goals (rw [h]; simp)

/-- C14: the service lookup. When the request's Host is not a key of
`serviceMap`, `Match` returns no endpoint and the error `no service`, whatever
the rest of the request and of the snapshot; when `serviceMap` holds a service
for the Host, `Match` does not return `no service` (the route balancer, whose
error `Match` passes on, not reporting an error of that very text). -/
theorem C14_no_service (X : Lib) (B : Balancers) (S : Maps) (req : Request) :
    (S.ServiceMap.lookup req.Host = none → Match X B S req = .ret none (some "no service")) ∧
    (∀ service, S.ServiceMap.lookup req.Host = some (some service) →
      (∀ lb, B.SelectCluster lb "" ≠ .error "no service") →
      Match X B S req ≠ .ret none (some "no service")) := by
  constructor
  · intro h
    simp [Match, Maps.GetService, h]
  · intro service h hB
    exact Match_ne_no_service X B S req service (by simp [Maps.GetService, h]) hB

/-- Witness of C14 on the snapshot of scenario S1: a request for the unknown
host `g` gets `no service`, a request for the host `h` does not. -/
theorem C14_no_service_witness :
    Match sampleLib sampleBalancers (exMaps []) { Host := "g" } = .ret none (some "no service") ∧
    Match sampleLib sampleBalancers (exMaps []) { Host := "h" }
      ≠ .ret none (some "no service") :=
  ⟨(C14_no_service sampleLib sampleBalancers (exMaps []) { Host := "g" }).1 (by decide),
   (C14_no_service sampleLib sampleBalancers (exMaps []) { Host := "h" }).2 (exService [])
     (by decide)
     (fun lb => by
       unfold sampleBalancers
       rcases lb with ⟨_ | ⟨⟨c, w⟩, rest⟩⟩ <;> simp)⟩

/-! ## Lemmas on the loader -/

theorem lookup_cons_ne {V : Type} (l : List (String × V)) (k k' : String) (v : V)
    (hne : k ≠ k') : ((k', v) :: l).lookup k = l.lookup k := by
  have hb : (k == k') = false := by simp [hne]
  simp [List.lookup, hb]

theorem lookup_cons_self {V : Type} (l : List (String × V)) (k : String) (v : V) :
    ((k, v) :: l).lookup k = some v := by
  simp [List.lookup]

theorem lookup_mapSet_self {V : Type} (l : List (String × V)) (k : String) (v : V) :
    (mapSet l k v).lookup k = some v := by
  induction l with
  | nil => simp [mapSet, List.lookup]
  | cons e rest ih =>
    obtain ⟨k', v'⟩ := e
    by_cases h : k' = k
    · simp [mapSet, h, List.lookup]
    · have h' : k ≠ k' := fun hh => h hh.symm
      simp only [mapSet, beq_iff_eq, h, if_false]
      rw [lookup_cons_ne _ _ _ _ h', ih]

theorem lookup_mapSet_ne {V : Type} (l : List (String × V)) (k k₀ : String) (v : V)
    (hne : k₀ ≠ k) : (mapSet l k v).lookup k₀ = l.lookup k₀ := by
  induction l with
  | nil =>
    simp only [mapSet]
    rw [lookup_cons_ne _ _ _ _ hne]
  | cons e rest ih =>
    obtain ⟨k', v'⟩ := e
    by_cases h : k' = k
    · subst h
      simp only [mapSet, beq_self_eq_true, if_true]
      rw [lookup_cons_ne _ _ _ _ hne, lookup_cons_ne _ _ _ _ hne]
    · simp only [mapSet, beq_iff_eq, h, if_false]
      by_cases h0 : k₀ = k'
      · subst h0
        rw [lookup_cons_self, lookup_cons_self]
      · rw [lookup_cons_ne _ _ _ _ h0, lookup_cons_ne _ _ _ _ h0, ih]

theorem goMap_set_eq_some {V : Type} (m m' : GoMap V) (k : String) (v : V)
    (h : m.set k v = some m') : ∃ l, m = some l ∧ m' = some (mapSet l k v) := by
  cases m with
  | none => simp [GoMap.set] at h
  | some l =>
    simp only [GoMap.set, Option.some.injEq] at h
    exact ⟨l, rfl, h.symm⟩

theorem goMap_lookup_set_self {V : Type} (m m' : GoMap V) (k : String) (v : V)
    (h : m.set k v = some m') : m'.lookup k = some v := by
  obtain ⟨l, _, rfl⟩ := goMap_set_eq_some m m' k v h
  simp [GoMap.lookup, lookup_mapSet_self]

theorem goMap_lookup_set_ne {V : Type} (m m' : GoMap V) (k k₀ : String) (v : V)
    (h : m.set k v = some m') (hne : k₀ ≠ k) : m'.lookup k₀ = m.lookup k₀ := by
  obtain ⟨l, rfl, rfl⟩ := goMap_set_eq_some m m' k v h
  simp [GoMap.lookup, lookup_mapSet_ne _ _ _ _ hne]

theorem goMap_set_ne_none {V : Type} (m m' : GoMap V) (k : String) (v : V)
    (h : m.set k v = some m') : m ≠ none ∧ m' ≠ none := by
  obtain ⟨l, rfl, rfl⟩ := goMap_set_eq_some m m' k v h
  simp

theorem goMap_set_total {V : Type} (m : GoMap V) (k : String) (v : V) (hm : m ≠ none) :
    ∃ m', m.set k v = some m' := by
  cases m with
  | none => exact absurd rfl hm
  | some l => exact ⟨_, rfl⟩

theorem hostLoop_spec (stored : Service) (host : String) :
    ∀ (hosts : List String) (serviceMap serviceMap' : GoMap (Option Service)),
      hostLoop stored hosts serviceMap = some serviceMap' →
      (serviceMap'.lookup host =
        if host ∈ hosts then some (some stored) else serviceMap.lookup host) ∧
      (serviceMap ≠ none → serviceMap' ≠ none)
  | [], serviceMap, serviceMap', h => by
    simp only [hostLoop, Option.some.injEq] at h
    subst h
    simp
  | h₀ :: rest, serviceMap, serviceMap', h => by
    simp only [hostLoop] at h
    cases hset : serviceMap.set h₀ (some stored) with
    | none => simp [hset] at h
    | some sm₁ =>
      simp only [hset] at h
      have ih := hostLoop_spec stored host rest sm₁ serviceMap' h
      refine ⟨?_, fun _ => ih.2 (goMap_set_ne_none _ _ _ _ hset).2⟩
      rw [ih.1]
      by_cases hmem : host ∈ rest
      · simp [hmem]
      · by_cases heq : host = h₀
        · subst heq
          simp [hmem, goMap_lookup_set_self _ _ _ _ hset]
        · simp [hmem, heq, goMap_lookup_set_ne _ _ _ _ _ hset heq]

theorem hostLoop_total (stored : Service) :
    ∀ (hosts : List String) (serviceMap : GoMap (Option Service)), serviceMap ≠ none →
      ∃ serviceMap', hostLoop stored hosts serviceMap = some serviceMap'
  | [], serviceMap, _ => ⟨serviceMap, rfl⟩
  | h₀ :: rest, serviceMap, hne => by
    obtain ⟨sm₁, hset⟩ := goMap_set_total serviceMap h₀ (some stored) hne
    obtain ⟨sm', h⟩ := hostLoop_total stored rest sm₁ (goMap_set_ne_none _ _ _ _ hset).2
    exact ⟨sm', by simp [hostLoop, hset, h]⟩

theorem destinationLoop_eq :
    ∀ (routeDest : List HttpRouteDestination) (lb : WeightRoundRobinBalancer),
      destinationLoop routeDest lb =
        { added := lb.added ++
            (routeDest.filter
              (fun d => decide (d.Weight > 0) && d.Destination.Cluster != "")).map
              (fun d => (d.Destination.Cluster, Itoa d.Weight)) }
  | [], lb => by simp [destinationLoop]
  | d :: rest, lb => by
    unfold destinationLoop
    by_cases hw : d.Weight ≤ 0
    · have hw' : ¬ d.Weight > 0 := not_lt.mpr hw
      simp [hw, hw', destinationLoop_eq rest lb]
    · have hw' : d.Weight > 0 := not_le.mp hw
      by_cases hc : d.Destination.Cluster = ""
      · simp [hw, hc, destinationLoop_eq rest lb]
      · simp [hw, hw', hc, destinationLoop_eq rest, WeightRoundRobinBalancer.Add]

theorem routeLoop_eq_some :
    ∀ (routes routes' : List (Option HttpRoute)), routeLoop routes = some routes' →
      routes' = routes.map (Option.map initRouteBalancer)
  | [], routes', h => by
    simp only [routeLoop, Option.some.injEq] at h
    rw [← h]
    rfl
  | none :: rest, routes', h => by simp [routeLoop] at h
  | some r :: rest, routes', h => by
    simp only [routeLoop] at h
    cases hr : routeLoop rest with
    | none => simp [hr] at h
    | some l =>
      simp only [hr, Option.some.injEq] at h
      rw [← h, routeLoop_eq_some rest l hr]
      simp

theorem routeLoop_total :
    ∀ routes : List (Option HttpRoute), none ∉ routes →
      routeLoop routes = some (routes.map (Option.map initRouteBalancer))
  | [], _ => by simp [routeLoop]
  | none :: rest, h => by simp at h
  | some r :: rest, h => by
    have hrest : none ∉ rest := fun hm => h (List.mem_cons_of_mem _ hm)
    simp [routeLoop, routeLoop_total rest hrest]

theorem ruleListLoop_cons_eq_some (name : String) (rule : RouteRule) (rest : List RouteRule)
    (ruleMap ruleMap' : GoMap (Option (List RouteRule)))
    (h : ruleListLoop name (rule :: rest) ruleMap = some ruleMap') :
    ∃ ruleMap₁, ruleMap.lookup name ≠ some none ∧
      ruleMap.set name
          (some ((ruleMap.lookup name).join.getD [] ++ [registeredRule rule])) = some ruleMap₁ ∧
      ruleListLoop name rest ruleMap₁ = some ruleMap' := by
  simp only [ruleListLoop] at h
  cases hl : ruleMap.lookup name with
  | none =>
    simp only [hl] at h
    cases hr : routeLoop rule.Http with
    | none => simp [hr] at h
    | some http =>
      simp only [hr] at h
      have hhttp := routeLoop_eq_some _ _ hr
      simp only [List.nil_append] at h
      cases hset : ruleMap.set name (some [{ rule with Http := http }]) with
      | none => simp [hset] at h
      | some rm₁ =>
        simp only [hset] at h
        refine ⟨rm₁, by simp, ?_, h⟩
        rw [← hset, hhttp]
        simp [registeredRule]
  | some o =>
    cases o with
    | none => simp [hl] at h
    | some old =>
      simp only [hl] at h
      cases hr : routeLoop rule.Http with
      | none => simp [hr] at h
      | some http =>
        simp only [hr] at h
        have hhttp := routeLoop_eq_some _ _ hr
        cases hset : ruleMap.set name (some (old ++ [{ rule with Http := http }])) with
        | none => simp [hset] at h
        | some rm₁ =>
          simp only [hset] at h
          refine ⟨rm₁, by simp, ?_, h⟩
          rw [← hset, hhttp]
          simp [registeredRule]

theorem ruleListLoop_spec (name : String) :
    ∀ (rules : List RouteRule) (ruleMap ruleMap' : GoMap (Option (List RouteRule))),
      ruleListLoop name rules ruleMap = some ruleMap' →
      (∀ n, n ≠ name → ruleMap'.lookup n = ruleMap.lookup n) ∧
      (rules = [] → ruleMap' = ruleMap) ∧
      (rules ≠ [] → ruleMap.lookup name ≠ some none ∧
        ruleMap'.lookup name =
          some (some ((ruleMap.lookup name).join.getD [] ++ rules.map registeredRule)))
  | [], ruleMap, ruleMap', h => by
    simp only [ruleListLoop, Option.some.injEq] at h
    subst h
    simp
  | rule :: rest, ruleMap, ruleMap', h => by
    obtain ⟨rm₁, hnn, hset, hrest⟩ := ruleListLoop_cons_eq_some name rule rest _ _ h
    have ih := ruleListLoop_spec name rest rm₁ ruleMap' hrest
    refine ⟨fun n hn => ?_, fun hnil => by simp at hnil, fun _ => ⟨hnn, ?_⟩⟩
    · rw [ih.1 n hn, goMap_lookup_set_ne _ _ _ _ _ hset hn]
    · by_cases hr : rest = []
      · rw [ih.2.1 hr, goMap_lookup_set_self _ _ _ _ hset, hr]
        simp
      · rw [(ih.2.2 hr).2, goMap_lookup_set_self _ _ _ _ hset]
        simp

theorem ruleListLoop_ne_none (name : String) :
    ∀ (rules : List RouteRule) (ruleMap ruleMap' : GoMap (Option (List RouteRule))),
      ruleListLoop name rules ruleMap = some ruleMap' → ruleMap ≠ none → ruleMap' ≠ none
  | [], ruleMap, ruleMap', h, hne => by
    simp only [ruleListLoop, Option.some.injEq] at h
    subst h
    exact hne
  | rule :: rest, ruleMap, ruleMap', h, _ => by
    obtain ⟨rm₁, _, hset, hrest⟩ := ruleListLoop_cons_eq_some name rule rest _ _ h
    exact ruleListLoop_ne_none name rest rm₁ ruleMap' hrest (goMap_set_ne_none _ _ _ _ hset).2

theorem ruleListLoop_total (name : String) :
    ∀ (rules : List RouteRule) (ruleMap : GoMap (Option (List RouteRule))),
      ruleMap ≠ none → (∀ r ∈ rules, none ∉ r.Http) → ruleMap.lookup name ≠ some none →
      ∃ ruleMap', ruleListLoop name rules ruleMap = some ruleMap'
  | [], ruleMap, _, _, _ => ⟨ruleMap, rfl⟩
  | rule :: rest, ruleMap, hne, hroutes, hnil => by
    have hr := routeLoop_total rule.Http (hroutes rule (List.mem_cons_self _ _))
    have hrest : ∀ r ∈ rest, none ∉ r.Http := fun r hm => hroutes r (List.mem_cons_of_mem _ hm)
    simp only [ruleListLoop, hr]
    cases hl : ruleMap.lookup name with
    | none =>
      obtain ⟨rm₁, hset⟩ := goMap_set_total ruleMap name
        (some [{ rule with Http := rule.Http.map (Option.map initRouteBalancer) }]) hne
      obtain ⟨rm', h⟩ := ruleListLoop_total name rest rm₁ (goMap_set_ne_none _ _ _ _ hset).2
        hrest (by rw [goMap_lookup_set_self _ _ _ _ hset]; simp)
      exact ⟨rm', by simp only [List.nil_append, hset, h]⟩
    | some o =>
      cases o with
      | none => exact absurd hl hnil
      | some old =>
        obtain ⟨rm₁, hset⟩ := goMap_set_total ruleMap name
          (some (old ++ [{ rule with Http := rule.Http.map (Option.map initRouteBalancer) }]))
          hne
        obtain ⟨rm', h⟩ := ruleListLoop_total name rest rm₁ (goMap_set_ne_none _ _ _ _ hset).2
          hrest (by rw [goMap_lookup_set_self _ _ _ _ hset]; simp)
        exact ⟨rm', by simp only [hset, h]⟩

theorem ruleListLoop_keeps (name : String) (rules : List RouteRule)
    (ruleMap ruleMap' : GoMap (Option (List RouteRule)))
    (h : ruleListLoop name rules ruleMap = some ruleMap') (n : String)
    (hn : ruleMap.lookup n ≠ some none) : ruleMap'.lookup n ≠ some none := by
  have hs := ruleListLoop_spec name rules ruleMap ruleMap' h
  by_cases hname : n = name
  · subst hname
    by_cases hrules : rules = []
    · rw [hs.2.1 hrules]
      exact hn
    · rw [(hs.2.2 hrules).2]
      simp
  · rw [hs.1 n hname]
    exact hn

theorem endpointLoop_ne_none :
    ∀ (endpoints : List (Option Endpoint)) (endpointMap endpointMap' : GoMap (Option Endpoint)),
      endpointLoop endpoints endpointMap = some endpointMap' → endpointMap ≠ none →
      endpointMap' ≠ none
  | [], endpointMap, endpointMap', h, hne => by
    simp only [endpointLoop, Option.some.injEq] at h
    subst h
    exact hne
  | none :: rest, endpointMap, endpointMap', h, _ => by simp [endpointLoop] at h
  | some e :: rest, endpointMap, endpointMap', h, _ => by
    simp only [endpointLoop] at h
    cases hset : endpointMap.set (e.Ip ++ ":" ++ e.Port) (some e) with
    | none => simp [hset] at h
    | some em₁ =>
      simp only [hset] at h
      exact endpointLoop_ne_none rest em₁ endpointMap' h (goMap_set_ne_none _ _ _ _ hset).2

theorem endpointLoop_total :
    ∀ (endpoints : List (Option Endpoint)) (endpointMap : GoMap (Option Endpoint)),
      none ∉ endpoints → endpointMap ≠ none →
      ∃ endpointMap', endpointLoop endpoints endpointMap = some endpointMap'
  | [], endpointMap, _, _ => ⟨endpointMap, rfl⟩
  | none :: rest, _, h, _ => by simp at h
  | some e :: rest, endpointMap, h, hne => by
    obtain ⟨em₁, hset⟩ := goMap_set_total endpointMap (e.Ip ++ ":" ++ e.Port) (some e) hne
    obtain ⟨em', h'⟩ := endpointLoop_total rest em₁
      (fun hm => h (List.mem_cons_of_mem _ hm)) (goMap_set_ne_none _ _ _ _ hset).2
    exact ⟨em', by simp [endpointLoop, hset, h']⟩

theorem initClusterBalancer_Endpoints (c : Cluster) :
    (initClusterBalancer c).Endpoints = c.Endpoints := by
  unfold initClusterBalancer
  split <;> rfl

theorem clusterLoop_ne_none :
    ∀ (clusters : List Cluster) (st st' : GoMap (Option Cluster) × GoMap (Option Endpoint)),
      clusterLoop clusters st = some st' → st.1 ≠ none → st.2 ≠ none →
      st'.1 ≠ none ∧ st'.2 ≠ none
  | [], st, st', h, h1, h2 => by
    simp only [clusterLoop, Option.some.injEq] at h
    subst h
    exact ⟨h1, h2⟩
  | c :: rest, (cm, em), st', h, _, h2 => by
    simp only [clusterLoop] at h
    cases hset : cm.set (initClusterBalancer c).Name (some (initClusterBalancer c)) with
    | none => simp [hset] at h
    | some cm₁ =>
      simp only [hset] at h
      cases he : endpointLoop (initClusterBalancer c).Endpoints em with
      | none => simp [he] at h
      | some em₁ =>
        simp only [he] at h
        exact clusterLoop_ne_none rest (cm₁, em₁) st' h (goMap_set_ne_none _ _ _ _ hset).2
          (endpointLoop_ne_none _ _ _ he h2)

theorem clusterLoop_total :
    ∀ (clusters : List Cluster) (st : GoMap (Option Cluster) × GoMap (Option Endpoint)),
      (∀ c ∈ clusters, none ∉ c.Endpoints) → st.1 ≠ none → st.2 ≠ none →
      ∃ st', clusterLoop clusters st = some st'
  | [], st, _, _, _ => ⟨st, rfl⟩
  | c :: rest, (cm, em), hends, h1, h2 => by
    obtain ⟨cm₁, hset⟩ :=
      goMap_set_total cm (initClusterBalancer c).Name (some (initClusterBalancer c)) h1
    have hc : none ∉ (initClusterBalancer c).Endpoints := by
      rw [initClusterBalancer_Endpoints]
      exact hends c (List.mem_cons_self _ _)
    obtain ⟨em₁, he⟩ := endpointLoop_total _ em hc h2
    obtain ⟨st', h⟩ := clusterLoop_total rest (cm₁, em₁)
      (fun c' hc' => hends c' (List.mem_cons_of_mem _ hc'))
      (goMap_set_ne_none _ _ _ _ hset).2 (endpointLoop_ne_none _ _ _ he h2)
    exact ⟨st', by simp [clusterLoop, hset, he, h]⟩

theorem ensureInner_spec {V : Type} (index index' : GoMap (GoMap V)) (inner : GoMap V)
    (name : String) (h : ensureInner index name = some (index', inner)) :
    (∀ n, n ≠ name → index'.lookup n = index.lookup n) ∧
    index'.lookup name = some inner ∧ index' ≠ none ∧
    ((∀ n, index.lookup n ≠ some none) → inner ≠ none) := by
  unfold ensureInner at h
  cases hl : index.lookup name with
  | some i =>
    simp only [hl, Option.some.injEq, Prod.mk.injEq] at h
    obtain ⟨rfl, rfl⟩ := h
    refine ⟨fun _ _ => rfl, hl, ?_, fun hnn hi => hnn name (by rw [hl, hi])⟩
    intro hnone
    rw [hnone] at hl
    simp [GoMap.lookup] at hl
  | none =>
    simp only [hl] at h
    cases hset : index.set name (some []) with
    | none => simp [hset] at h
    | some i' =>
      simp only [hset, Option.some.injEq, Prod.mk.injEq] at h
      obtain ⟨rfl, rfl⟩ := h
      exact ⟨fun n hn => goMap_lookup_set_ne _ _ _ _ _ hset hn,
        goMap_lookup_set_self _ _ _ _ hset, (goMap_set_ne_none _ _ _ _ hset).2,
        fun _ => by simp⟩

theorem ensureInner_total {V : Type} (index : GoMap (GoMap V)) (name : String)
    (hne : index ≠ none) : ∃ p, ensureInner index name = some p := by
  unfold ensureInner
  cases hl : index.lookup name with
  | some i => exact ⟨_, rfl⟩
  | none =>
    obtain ⟨i', hset⟩ := goMap_set_total index name (some []) hne
    exact ⟨(i', some []), by simp [hset]⟩

theorem loadService_eq_some (stored : Service) (m m' : Maps) (service : Service)
    (h : loadService stored m service = some m') :
    ∃ clusters clusterMap endpoints endpointMap clusterMap' endpointMap',
      ensureInner m.Clusters service.Name = some (clusters, clusterMap) ∧
      ensureInner m.Endpoints service.Name = some (endpoints, endpointMap) ∧
      clusterLoop service.Clusters (clusterMap, endpointMap)
        = some (clusterMap', endpointMap') ∧
      hostLoop stored service.Hosts m.ServiceMap = some m'.ServiceMap ∧
      ruleListLoop service.Name service.Rules m.RuleMap = some m'.RuleMap ∧
      clusters.set service.Name clusterMap' = some m'.Clusters ∧
      endpoints.set service.Name endpointMap' = some m'.Endpoints := by
  unfold loadService at h
  cases h1 : ensureInner m.Clusters service.Name with
  | none => simp [h1] at h
  | some p1 =>
    obtain ⟨clusters, clusterMap⟩ := p1
    simp only [h1] at h
    cases h2 : ensureInner m.Endpoints service.Name with
    | none => simp [h2] at h
    | some p2 =>
      obtain ⟨endpoints, endpointMap⟩ := p2
      simp only [h2] at h
      cases h3 : clusterLoop service.Clusters (clusterMap, endpointMap) with
      | none => simp [h3] at h
      | some p3 =>
        obtain ⟨clusterMap', endpointMap'⟩ := p3
        simp only [h3] at h
        cases h4 : hostLoop stored service.Hosts m.ServiceMap with
        | none => simp [h4] at h
        | some serviceMap =>
          simp only [h4] at h
          cases h5 : ruleListLoop service.Name service.Rules m.RuleMap with
          | none => simp [h5] at h
          | some ruleMap =>
            simp only [h5] at h
            cases h6 : clusters.set service.Name clusterMap' with
            | none => simp [h6] at h
            | some clusters' =>
              cases h7 : endpoints.set service.Name endpointMap' with
              | none => simp [h6, h7] at h
              | some endpoints' =>
                simp only [h6, h7, Option.some.injEq] at h
                subst h
                exact ⟨clusters, clusterMap, endpoints, endpointMap, clusterMap', endpointMap',
                  rfl, rfl, h3, rfl, rfl, h6, h7⟩

theorem loadService_frame (stored : Service) (m m' : Maps) (service : Service)
    (h : loadService stored m service = some m') (n : String) (hn : n ≠ service.Name) :
    m'.RuleMap.lookup n = m.RuleMap.lookup n ∧
    m'.Endpoints.lookup n = m.Endpoints.lookup n ∧
    m'.Clusters.lookup n = m.Clusters.lookup n := by
  obtain ⟨clusters, clusterMap, endpoints, endpointMap, clusterMap', endpointMap',
    h1, h2, _, _, h5, h6, h7⟩ := loadService_eq_some stored m m' service h
  refine ⟨(ruleListLoop_spec _ _ _ _ h5).1 n hn, ?_, ?_⟩
  · rw [goMap_lookup_set_ne _ _ _ _ _ h7 hn, (ensureInner_spec _ _ _ _ h2).1 n hn]
  · rw [goMap_lookup_set_ne _ _ _ _ _ h6 hn, (ensureInner_spec _ _ _ _ h1).1 n hn]

theorem loadService_wellFormed (stored : Service) (m m' : Maps) (service : Service)
    (h : loadService stored m service = some m') (hm : m.WellFormed) : m'.WellFormed := by
  obtain ⟨clusters, clusterMap, endpoints, endpointMap, clusterMap', endpointMap',
    h1, h2, h3, h4, h5, h6, h7⟩ := loadService_eq_some stored m m' service h
  obtain ⟨w1, w2, _, _, w5, w6, w7⟩ := hm
  have e1 := ensureInner_spec _ _ _ _ h1
  have e2 := ensureInner_spec _ _ _ _ h2
  have hinner := clusterLoop_ne_none _ _ _ h3 (e1.2.2.2 w7) (e2.2.2.2 w6)
  refine ⟨(hostLoop_spec stored "" _ _ _ h4).2 w1, ruleListLoop_ne_none _ _ _ _ h5 w2,
    (goMap_set_ne_none _ _ _ _ h7).2, (goMap_set_ne_none _ _ _ _ h6).2,
    fun n => ruleListLoop_keeps _ _ _ _ h5 n (w5 n), fun n => ?_, fun n => ?_⟩
  · by_cases hn : n = service.Name
    · subst hn
      rw [goMap_lookup_set_self _ _ _ _ h7]
      intro hc
      exact hinner.2 (Option.some.inj hc)
    · rw [goMap_lookup_set_ne _ _ _ _ _ h7 hn, e2.1 n hn]
      exact w6 n
  · by_cases hn : n = service.Name
    · subst hn
      rw [goMap_lookup_set_self _ _ _ _ h6]
      intro hc
      exact hinner.1 (Option.some.inj hc)
    · rw [goMap_lookup_set_ne _ _ _ _ _ h6 hn, e1.1 n hn]
      exact w7 n

theorem loadService_total (stored : Service) (m : Maps) (service : Service)
    (hm : m.WellFormed)
    (hroutes : ∀ r ∈ service.Rules, none ∉ r.Http)
    (hends : ∀ c ∈ service.Clusters, none ∉ c.Endpoints) :
    ∃ m', loadService stored m service = some m' := by
  obtain ⟨w1, w2, w3, w4, w5, w6, w7⟩ := hm
  obtain ⟨⟨clusters, clusterMap⟩, h1⟩ := ensureInner_total m.Clusters service.Name w4
  obtain ⟨⟨endpoints, endpointMap⟩, h2⟩ := ensureInner_total m.Endpoints service.Name w3
  have e1 := ensureInner_spec _ _ _ _ h1
  have e2 := ensureInner_spec _ _ _ _ h2
  obtain ⟨⟨clusterMap', endpointMap'⟩, h3⟩ := clusterLoop_total service.Clusters
    (clusterMap, endpointMap) hends (e1.2.2.2 w7) (e2.2.2.2 w6)
  obtain ⟨serviceMap, h4⟩ := hostLoop_total stored service.Hosts m.ServiceMap w1
  obtain ⟨ruleMap, h5⟩ := ruleListLoop_total service.Name service.Rules m.RuleMap w2 hroutes
    (w5 service.Name)
  obtain ⟨clusters', h6⟩ := goMap_set_total clusters service.Name clusterMap' e1.2.2.1
  obtain ⟨endpoints', h7⟩ := goMap_set_total endpoints service.Name endpointMap' e2.2.2.1
  refine ⟨{ ServiceMap := serviceMap, RuleMap := ruleMap, Endpoints := endpoints',
            Clusters := clusters' }, ?_⟩
  simp [loadService, h1, h2, h3, h4, h5, h6, h7]

theorem serviceLoop_spec (stored : Service) :
    ∀ (services : List Service) (m m' : Maps), serviceLoop stored services m = some m' →
      (∀ host, m'.ServiceMap.lookup host =
        if host ∈ services.flatMap (fun s => s.Hosts) then some (some stored)
        else m.ServiceMap.lookup host) ∧
      (∀ name, (∀ s ∈ services, s.Name ≠ name) →
        m'.RuleMap.lookup name = m.RuleMap.lookup name ∧
        m'.Endpoints.lookup name = m.Endpoints.lookup name ∧
        m'.Clusters.lookup name = m.Clusters.lookup name) ∧
      (m.WellFormed → m'.WellFormed)
  | [], m, m', h => by
    simp only [serviceLoop, Option.some.injEq] at h
    subst h
    simp
  | service :: rest, m, m', h => by
    simp only [serviceLoop] at h
    cases h1 : loadService stored m service with
    | none => simp [h1] at h
    | some m₁ =>
      simp only [h1] at h
      have ih := serviceLoop_spec stored rest m₁ m' h
      obtain ⟨_, _, _, _, _, _, _, _, _, hsm, _, _, _⟩ :=
        loadService_eq_some stored m m₁ service h1
      refine ⟨?_, ?_, fun hm => ih.2.2 (loadService_wellFormed stored m m₁ service h1 hm)⟩
      · intro host
        rw [ih.1 host, (hostLoop_spec stored host _ _ _ hsm).1]
        by_cases hr : host ∈ rest.flatMap (fun s => s.Hosts)
        · simp [hr]
        · by_cases hh : host ∈ service.Hosts
          · simp [hh]
          · simp [hr, hh]
      · intro name hname
        have hne : name ≠ service.Name := fun hh => hname service (List.mem_cons_self _ _) hh.symm
        have hrest : ∀ s ∈ rest, s.Name ≠ name :=
          fun s hs => hname s (List.mem_cons_of_mem _ hs)
        obtain ⟨i1, i2, i3⟩ := ih.2.1 name hrest
        obtain ⟨f1, f2, f3⟩ := loadService_frame stored m m₁ service h1 name hne
        exact ⟨i1.trans f1, i2.trans f2, i3.trans f3⟩

theorem serviceLoop_total (stored : Service) :
    ∀ (services : List Service) (m : Maps), m.WellFormed →
      (∀ s ∈ services, ∀ r ∈ s.Rules, none ∉ r.Http) →
      (∀ s ∈ services, ∀ c ∈ s.Clusters, none ∉ c.Endpoints) →
      ∃ m', serviceLoop stored services m = some m'
  | [], m, _, _, _ => ⟨m, rfl⟩
  | service :: rest, m, hm, hroutes, hends => by
    obtain ⟨m₁, h1⟩ := loadService_total stored m service hm
      (hroutes service (List.mem_cons_self _ _)) (hends service (List.mem_cons_self _ _))
    obtain ⟨m', h⟩ := serviceLoop_total stored rest m₁
      (loadService_wellFormed stored m m₁ service h1 hm)
      (fun s hs => hroutes s (List.mem_cons_of_mem _ hs))
      (fun s hs => hends s (List.mem_cons_of_mem _ hs))
    exact ⟨m', by simp [serviceLoop, h1, h]⟩

theorem LoadServiceData_total (m : Maps) (pc : ProxyConfig) (hm : m.WellFormed)
    (hroutes : ∀ s ∈ pc.Services, ∀ r ∈ s.Rules, none ∉ r.Http)
    (hends : ∀ s ∈ pc.Services, ∀ c ∈ s.Clusters, none ∉ c.Endpoints) :
    ∃ m', LoadServiceData m pc = some m' := by
  unfold LoadServiceData
  cases pc.Services.getLast? with
  | none => exact ⟨m, rfl⟩
  | some last => exact serviceLoop_total _ pc.Services m hm hroutes hends

theorem LoadServiceData_wellFormed (m m' : Maps) (pc : ProxyConfig)
    (h : LoadServiceData m pc = some m') (hm : m.WellFormed) : m'.WellFormed := by
  unfold LoadServiceData at h
  cases hl : pc.Services.getLast? with
  | none =>
    simp only [hl, Option.some.injEq] at h
    subst h
    exact hm
  | some last =>
    simp only [hl] at h
    exact (serviceLoop_spec _ _ _ _ h).2.2 hm

theorem LoadServiceData_hosts (m m' : Maps) (pc : ProxyConfig) (last : Service)
    (h : LoadServiceData m pc = some m') (hlast : pc.Services.getLast? = some last)
    (service : Service) (hs : service ∈ pc.Services) (host : String)
    (hh : host ∈ service.Hosts) : m'.GetService host = some (serviceVariable last) := by
  unfold LoadServiceData at h
  rw [hlast] at h
  have hmem : host ∈ pc.Services.flatMap (fun s => s.Hosts) :=
    List.mem_flatMap.mpr ⟨service, hs, hh⟩
  simp [Maps.GetService, (serviceLoop_spec _ _ _ _ h).1 host, hmem]

theorem LoadServiceData_frame (m m' : Maps) (pc : ProxyConfig)
    (h : LoadServiceData m pc = some m') :
    (∀ host, (∀ s ∈ pc.Services, host ∉ s.Hosts) →
      m'.ServiceMap.lookup host = m.ServiceMap.lookup host) ∧
    (∀ name, (∀ s ∈ pc.Services, s.Name ≠ name) →
      m'.RuleMap.lookup name = m.RuleMap.lookup name ∧
      m'.Endpoints.lookup name = m.Endpoints.lookup name ∧
      m'.Clusters.lookup name = m.Clusters.lookup name) := by
  unfold LoadServiceData at h
  cases hl : pc.Services.getLast? with
  | none =>
    simp only [hl, Option.some.injEq] at h
    subst h
    simp
  | some last =>
    simp only [hl] at h
    have hs := serviceLoop_spec _ _ _ _ h
    refine ⟨fun host hhost => ?_, hs.2.1⟩
    have hmem : host ∉ pc.Services.flatMap (fun s => s.Hosts) := by
      intro hm
      obtain ⟨s, hs', hh⟩ := List.mem_flatMap.mp hm
      exact hhost s hs' hh
    rw [hs.1 host]
    simp [hmem]

theorem serviceLoop_rules (stored : Service) :
    ∀ (services : List Service) (m m' : Maps), serviceLoop stored services m = some m' →
      (services.map (fun s => s.Name)).Nodup →
      ∀ service ∈ services, service.Rules ≠ [] →
        m'.GetRule service.Name =
          some ((m.GetRule service.Name).getD [] ++ service.Rules.map registeredRule)
  | [], _, _, _, _, service, hs, _ => by simp at hs
  | first :: rest, m, m', h, hnd, service, hs, hrules => by
    simp only [serviceLoop] at h
    cases h1 : loadService stored m first with
    | none => simp [h1] at h
    | some m₁ =>
      simp only [h1] at h
      obtain ⟨_, _, _, _, _, _, _, _, _, _, hrm, _, _⟩ :=
        loadService_eq_some stored m m₁ first h1
      have hspec := ruleListLoop_spec _ _ _ _ hrm
      simp only [List.map_cons, List.nodup_cons, List.mem_map, not_exists, not_and] at hnd
      rcases List.mem_cons.mp hs with heq | hmem
      · subst heq
        have hframe := ((serviceLoop_spec stored rest m₁ m' h).2.1 service.Name
          (fun s hs' => hnd.1 s hs')).1
        simp only [Maps.GetRule, hframe, (hspec.2.2 hrules).2]
        simp
      · have hne : service.Name ≠ first.Name := fun hh => hnd.1 service hmem hh
        have ih := serviceLoop_rules stored rest m₁ m' h hnd.2 service hmem hrules
        rw [ih]
        simp only [Maps.GetRule, hspec.1 service.Name hne]

theorem LoadServiceData_rules (m m' : Maps) (pc : ProxyConfig)
    (h : LoadServiceData m pc = some m')
    (hnd : (pc.Services.map (fun s => s.Name)).Nodup)
    (service : Service) (hs : service ∈ pc.Services) (hrules : service.Rules ≠ []) :
    m'.GetRule service.Name =
      some ((m.GetRule service.Name).getD [] ++ service.Rules.map registeredRule) := by
  unfold LoadServiceData at h
  cases hl : pc.Services.getLast? with
  | none =>
    rw [List.getLast?_eq_none_iff] at hl
    rw [hl] at hs
    simp at hs
  | some last =>
    simp only [hl] at h
    exact serviceLoop_rules _ pc.Services m m' h hnd service hs hrules

theorem NewMaps_wellFormed : NewMaps.WellFormed := by
  refine ⟨by decide, by decide, by decide, by decide, ?_, ?_, ?_⟩ <;>
  · intro name
    simp [NewMaps, GoMap.lookup]

/-! ## Claims on the loader -/

/-- C15 (the code departs from the claim): `m.ServiceMap[host] = &service`
stores the address of the range variable, which is one variable for the whole
loop over `pc.Services`. After a load every host of every service of the
configuration resolves to the last service of the configuration; with two
services `s1` on `h1` and `s2` on `h2`, `GetService("h1")` returns `s2` and
`GetServiceRule("h1")` the rules of `s2`, although the rules of `s1` are
registered under `s1`. -/
theorem C15_hosts_resolve_to_last_service :
    (∀ (m : Maps) (pc : ProxyConfig) (m' : Maps) (last : Service),
      LoadServiceData m pc = some m' → pc.Services.getLast? = some last →
      ∀ service ∈ pc.Services, ∀ host ∈ service.Hosts,
        m'.GetService host = some (serviceVariable last)) ∧
    (LoadServiceData {} exConfigTwo).map
        (fun m =>
          ((m.GetService "h1").map (fun s => s.Name),
           (m.GetServiceRule "h1").map (fun rules => rules.map (fun r => r.Name)),
           (m.GetRule "s1").map (fun rules => rules.map (fun r => r.Name))))
      = some (some "s2", some ["r2"], some ["r1"]) := by
  refine ⟨?_, by decide⟩
  intro m pc m' last h hlast service hs host hh
  exact LoadServiceData_hosts m m' pc last h hlast service hs host hh

/-- C16, the claim as stated fails: loading a configuration that lists the
host `h` under the services `s1` and `s2` gives a snapshot, no error, in which
`h` resolves to `s2`. -/
theorem C16_conflicting_host_counterexample :
    (LoadServiceData {} exConfigConflict).map
        (fun m => (m.GetService "h").map (fun s => s.Name))
      = some (some "s2") := by
  decide

/-- C16, amended: a host listed under two services is not reported.
`LoadServiceData` has no error result: for a configuration without nil route
and without nil endpoint, on a snapshot in which no map and no rule list is nil
(as `NewMaps` and `LoadServiceData` build them), the load completes, leaves
such a snapshot, and every host listed under a service of the configuration
then resolves to one service of the configuration. -/
theorem C16_conflicting_host_not_reported (m : Maps) (pc : ProxyConfig)
    (hm : m.WellFormed)
    (hroutes : ∀ s ∈ pc.Services, ∀ r ∈ s.Rules, none ∉ r.Http)
    (hends : ∀ s ∈ pc.Services, ∀ c ∈ s.Clusters, none ∉ c.Endpoints) :
    ∃ m', LoadServiceData m pc = some m' ∧ m'.WellFormed ∧
      ∀ service ∈ pc.Services, ∀ host ∈ service.Hosts,
        ∃ s ∈ pc.Services, m'.GetService host = some (serviceVariable s) := by
  obtain ⟨m', h⟩ := LoadServiceData_total m pc hm hroutes hends
  refine ⟨m', h, LoadServiceData_wellFormed m m' pc h hm, ?_⟩
  intro service hs host hh
  cases hl : pc.Services.getLast? with
  | none =>
    rw [List.getLast?_eq_none_iff] at hl
    rw [hl] at hs
    simp at hs
  | some last =>
    exact ⟨last, List.mem_of_getLast?_eq_some hl,
      LoadServiceData_hosts m m' pc last h hl service hs host hh⟩

/-- Witness of C16 on the snapshot of `NewMaps` and the configuration that lists
`h` under `s1` and `s2`. -/
theorem C16_conflicting_host_not_reported_witness :
    ∃ m', LoadServiceData NewMaps exConfigConflict = some m' ∧ m'.WellFormed ∧
      ∀ service ∈ exConfigConflict.Services, ∀ host ∈ service.Hosts,
        ∃ s ∈ exConfigConflict.Services, m'.GetService host = some (serviceVariable s) :=
  C16_conflicting_host_not_reported NewMaps exConfigConflict NewMaps_wellFormed
    (by decide) (by decide)

theorem Load_eq_some (cm cm' : CowMaps) (pc : ProxyConfig) (h : Load cm pc = some cm') :
    ∃ m', LoadServiceData (cm.read cm.Get) pc = some m' ∧
      cm' = { cm with objects := cm.objects.set cm.Get m' } := by
  unfold Load at h
  cases hl : LoadServiceData (cm.read cm.Get) pc with
  | none => simp [hl] at h
  | some m' =>
    simp only [hl, Option.some.injEq] at h
    exact ⟨m', rfl, h.symm⟩

/-- C17, the claim as stated fails: on the store whose snapshot has the host
`h` of service `s`, loading a configuration that has only the service `t` on
host `g` leaves `h` resolvable; loading that configuration twice registers two
rules under `t` where one load registers one; and the object that `Get`
returned before the load no longer has its former value. -/
theorem C17_load_replaces_counterexample :
    (Load exStore exConfigT).map
        (fun cm => ((cm.read cm.Get).GetService "h").map (fun s => s.Name))
      = some (some "s") ∧
    (Load exStore exConfigT).map
        (fun cm => ((cm.read cm.Get).GetRule "t").map List.length) = some (some 1) ∧
    ((Load exStore exConfigT).bind (fun cm => Load cm exConfigT)).map
        (fun cm => ((cm.read cm.Get).GetRule "t").map List.length) = some (some 2) ∧
    (Load exStore exConfigT).map
        (fun cm => (cm.Get, decide (cm.read exStore.Get = exStore.read exStore.Get)))
      = some (exStore.Get, false) := by
  decide

/-- C17, amended: a load merges the new configuration into the current
snapshot, in place. The load publishes no new object: it writes to the object
that `Get` returns, and the other objects keep their value. In that object a
host that the new configuration does not list, and the rule list, endpoint
index and cluster index of a service name that the new configuration does not
use, are as before the load; and, the service names of the configuration being
distinct, the rules of a service are appended to the rules already registered
under its name. -/
theorem C17_load_merges_in_place (cm cm' : CowMaps) (pc : ProxyConfig)
    (hv : cm.Get < cm.objects.length) (h : Load cm pc = some cm') :
    cm'.Get = cm.Get ∧
    LoadServiceData (cm.read cm.Get) pc = some (cm'.read cm.Get) ∧
    (∀ p, p ≠ cm.Get → cm'.read p = cm.read p) ∧
    (∀ host, (∀ s ∈ pc.Services, host ∉ s.Hosts) →
      (cm'.read cm.Get).ServiceMap.lookup host = (cm.read cm.Get).ServiceMap.lookup host) ∧
    (∀ name, (∀ s ∈ pc.Services, s.Name ≠ name) →
      (cm'.read cm.Get).RuleMap.lookup name = (cm.read cm.Get).RuleMap.lookup name ∧
      (cm'.read cm.Get).Endpoints.lookup name = (cm.read cm.Get).Endpoints.lookup name ∧
      (cm'.read cm.Get).Clusters.lookup name = (cm.read cm.Get).Clusters.lookup name) ∧
    ((pc.Services.map (fun s => s.Name)).Nodup →
      ∀ service ∈ pc.Services, service.Rules ≠ [] →
        (cm'.read cm.Get).GetRule service.Name =
          some (((cm.read cm.Get).GetRule service.Name).getD [] ++
            service.Rules.map registeredRule)) := by
  obtain ⟨m', hload, hcm⟩ := Load_eq_some cm cm' pc h
  have hread : cm'.read cm.Get = m' := by
    subst hcm
    simp [CowMaps.read, List.getD_eq_getElem?_getD, hv]
  have hother : ∀ p, p ≠ cm.Get → cm'.read p = cm.read p := by
    intro p hp
    subst hcm
    simp [CowMaps.read, List.getD_eq_getElem?_getD, List.getElem?_set, Ne.symm hp]
  have hframe := LoadServiceData_frame _ _ pc hload
  refine ⟨by subst hcm; rfl, by rw [hread]; exact hload, hother, ?_, ?_, ?_⟩
  · rw [hread]
    exact hframe.1
  · rw [hread]
    exact hframe.2
  · intro hnd service hs hrules
    rw [hread]
    exact LoadServiceData_rules _ _ pc hload hnd service hs hrules

/-- Witness of C17: after the load of the service `t` on the store of scenario
S1, the address of the current snapshot is the same and the rule list of `t`
holds the rule of the configuration. -/
theorem C17_load_merges_in_place_witness :
    ∃ cm', Load exStore exConfigT = some cm' ∧ cm'.Get = exStore.Get ∧
      ((cm'.read exStore.Get).GetRule "t").map List.length = some 1 :=
  match h : Load exStore exConfigT with
  | none => absurd h (by decide)
  | some cm' =>
    ⟨cm', rfl, (C17_load_merges_in_place exStore cm' exConfigT (by decide) h).1, by
      have h6 := (C17_load_merges_in_place exStore cm' exConfigT (by decide) h).2.2.2.2.2
        (by decide)
        { Name := "t", Hosts := ["g"],
          Rules := [{ Name := "a",
                      Http := [some (exRouteParsed [{ Uri := { Prefix := "/a" } }])] }] }
        (by decide) (by decide)
      rw [h6]
      decide⟩

/-- C18: the destinations of a route at build time. For a route without a
balancer the body of the loop over `rule.Http` creates a balancer and adds to
it exactly the destinations of the route that have a weight above 0 and a
non-empty cluster name, in their order, each with its weight (in decimal); a
route that has a balancer is left as it is; and, the service names of the
configuration being distinct, the rules that `LoadServiceData` registers for a
service are the rules of the configuration with every route so treated, after
the rules registered before. -/
theorem C18_route_destinations (httpRoute : HttpRoute) :
    (httpRoute.LoadBalancer = none →
      initRouteBalancer httpRoute =
        { httpRoute with
          LoadBalancer := some
            { added :=
                (httpRoute.Route.filter
                  (fun d => decide (d.Weight > 0) && d.Destination.Cluster != "")).map
                  (fun d => (d.Destination.Cluster, Itoa d.Weight)) } }) ∧
    (∀ lb, httpRoute.LoadBalancer = some lb → initRouteBalancer httpRoute = httpRoute) ∧
    (∀ rule : RouteRule,
      (registeredRule rule).Http = rule.Http.map (Option.map initRouteBalancer)) ∧
    (∀ (m m' : Maps) (pc : ProxyConfig),
      LoadServiceData m pc = some m' → (pc.Services.map (fun s => s.Name)).Nodup →
      ∀ service ∈ pc.Services, service.Rules ≠ [] →
        m'.GetRule service.Name =
          some ((m.GetRule service.Name).getD [] ++ service.Rules.map registeredRule)) := by
  refine ⟨?_, ?_, fun _ => rfl, ?_⟩
  · intro h
    simp [initRouteBalancer, h, destinationLoop_eq]
  · intro lb h
    simp [initRouteBalancer, h]
  · intro m m' pc h hnd service hs hrules
    exact LoadServiceData_rules m m' pc h hnd service hs hrules

/-- Witness of C18: of the destinations `c` weight 3, `d` weight 0, the empty
name weight 2 and `e` weight 1, the balancer gets `c` with 3 and `e` with 1. -/
theorem C18_route_destinations_witness :
    (initRouteBalancer exRouteFour).LoadBalancer = some { added := [("c", "3"), ("e", "1")] } :=
  ((C18_route_destinations exRouteFour).1 rfl).symm ▸ (by decide)

/-! ## Claims on the snapshot read by `Match` and on regular expressions -/

theorem MatchAt_of_rules (X : Lib) (B : Balancers) (S₁ S₂ S₃ : Maps) (req : Request)
    (service : Service) (rules : List RouteRule)
    (hs : S₁.GetService req.Host = some service)
    (hr : S₂.GetRule service.Name = some rules) (hne : rules ≠ []) :
    MatchAt X B S₁ S₂ S₃ req = firstMatch X B S₃ service req rules := by
  have hlen : ¬ rules.length ≤ 0 := by
    cases rules with
    | nil => exact absurd rfl hne
    | cons a l => simp
  unfold MatchAt firstMatch
  simp only [hs, hr, Option.isNone_some, Option.getD_some, Bool.false_or, decide_eq_true_eq,
    hlen, if_false, ruleLoop_eq, selectFirst]
  cases List.find? (fun p => clauseSatisfied X req p.2) (candidateClauses rules) <;> rfl

/-- C19 (the code departs from the claim): `Match` calls `ServiceData.Get()`
anew for the service, for the rule list and for the endpoint or cluster index.
With the same snapshot at the three calls it is `Match` on that snapshot; with
different ones it takes the service of the first, the rules of the second and
the clusters of the third. When an update publishes a new snapshot between the
call for the rules and the call for the cluster index, the request below is
answered with the endpoint `E2`, from the rule of the old snapshot and the
cluster of the new one, where the old snapshot alone gives `E1` and the new one
alone `no endpoint`. -/
theorem C19_match_reads_several_snapshots :
    (∀ (X : Lib) (B : Balancers) (S : Maps) (req : Request),
      MatchAt X B S S S req = Match X B S req) ∧
    (∀ (X : Lib) (B : Balancers) (S₁ S₂ S₃ : Maps) (req : Request) (service : Service)
        (rules : List RouteRule),
      S₁.GetService req.Host = some service → S₂.GetRule service.Name = some rules →
      rules ≠ [] →
      MatchAt X B S₁ S₂ S₃ req = firstMatch X B S₃ service req rules) ∧
    MatchAt sampleLib sampleBalancers (exStoreAB.read exStoreAB.Get)
        (exStoreAB.read exStoreAB.Get) (exStoreUpdated.read exStoreUpdated.Get)
        { Host := "h", Method := "GET", RequestURI := "/a/x" }
      = .ret (some E2) none ∧
    Match sampleLib sampleBalancers (exStoreAB.read exStoreAB.Get)
        { Host := "h", Method := "GET", RequestURI := "/a/x" }
      = .ret (some E1) none ∧
    Match sampleLib sampleBalancers (exStoreUpdated.read exStoreUpdated.Get)
        { Host := "h", Method := "GET", RequestURI := "/a/x" }
      = .ret none (some "no endpoint") := by
  refine ⟨fun _ _ _ _ => rfl, ?_, by decide, by decide, by decide⟩
  intro X B S₁ S₂ S₃ req service rules hs hr hne
  exact MatchAt_of_rules X B S₁ S₂ S₃ req service rules hs hr hne

theorem mem_splits (s u w t : List Char) : (u, w, t) ∈ splits s ↔ s = u ++ w ++ t := by
  unfold splits
  simp only [List.mem_flatMap, List.mem_map, Prod.mk.injEq, Prod.exists]
  constructor
  · rintro ⟨a, b, hab, c, d, hcd, rfl, rfl, rfl⟩
    rw [List.mem_zip_inits_tails] at hab hcd
    rw [← hab, ← hcd, List.append_assoc]
  · intro hs
    refine ⟨u, w ++ t, ?_, w, t, ?_, rfl, rfl, rfl⟩
    · rw [List.mem_zip_inits_tails, hs, List.append_assoc]
    · rw [List.mem_zip_inits_tails]

theorem searchMatch_iff (M : MatchRel) (s : String) :
    searchMatch M s = true ↔ ∃ u w t : List Char, s.data = u ++ w ++ t ∧ M u w t = true := by
  unfold searchMatch
  rw [List.any_eq_true]
  constructor
  · rintro ⟨⟨u, w, t⟩, hmem, hM⟩
    exact ⟨u, w, t, (mem_splits _ _ _ _).mp hmem, hM⟩
  · rintro ⟨u, w, t, hs, hM⟩
    exact ⟨(u, w, t), (mem_splits _ _ _ _).mpr hs, hM⟩

/-- C20, the claim as stated fails: with `regexp.MatchString` on the pattern
`api`, whose language is the single string `api`, the value `/x/api/y` is not
in the language of the pattern, yet `MatchString` finds a match inside it and
`checkMatch` reports it as matched; the engine does honour the anchors of
`^api$`. -/
theorem C20_regex_whole_string_counterexample :
    (anchoredLiteral "api").map (fun M => (wholeMatch M "api", wholeMatch M "/x/api/y"))
      = some (true, false) ∧
    anchoredLiteralLib.MatchString "api" "/x/api/y" = some true ∧
    checkMatch anchoredLiteralLib { Regex := "api" } "/x/api/y" false = (true, true) ∧
    anchoredLiteralLib.MatchString "^api$" "api" = some true ∧
    anchoredLiteralLib.MatchString "^api$" "/x/api/y" = some false := by
  decide

/-- C20, amended: a regex predicate searches the value, the code adds no
anchor. For a `StringMatch` with exact and prefix empty and a regex `r`,
`checkMatch` reports `needMatch = true` and as `isMatched` the answer of
`regexp.MatchString` on `r` and the request value (lower-cased when
`ignoreCase` is set), `false` when `r` does not compile. With
`regexp.MatchString` behaving as documented: when `r` compiles, `isMatched` is
true exactly when the value can be cut as `u ++ w ++ t` with `r` matching `w`
there; a value that is in the language of `r` as a whole is matched, the
converse failing as the counterexample shows. -/
theorem C20_regex_searches_value (X : Lib) (sm : StringMatch) (v : String)
    (ignoreCase : Bool) (he : sm.Exact = "") (hp : sm.Prefix = "") (hr : sm.Regex ≠ "") :
    checkMatch X sm v ignoreCase =
      (X.MatchString sm.Regex (if ignoreCase then X.ToLower v else v) == some true, true) ∧
    (X.MatchString sm.Regex (if ignoreCase then X.ToLower v else v) = none →
      checkMatch X sm v ignoreCase = (false, true)) ∧
    (∀ sem : String → Option MatchRel, SearchesForMatch X sem →
      (∀ M, sem sm.Regex = some M →
        ((checkMatch X sm v ignoreCase).1 = true ↔
          ∃ u w t : List Char,
            (if ignoreCase then X.ToLower v else v).data = u ++ w ++ t ∧ M u w t = true) ∧
        (wholeMatch M (if ignoreCase then X.ToLower v else v) = true →
          (checkMatch X sm v ignoreCase).1 = true)) ∧
      (sem sm.Regex = none → checkMatch X sm v ignoreCase = (false, true))) := by
  have hcm : checkMatch X sm v ignoreCase =
      (X.MatchString sm.Regex (if ignoreCase then X.ToLower v else v) == some true, true) := by
    cases hm : X.MatchString sm.Regex (if ignoreCase then X.ToLower v else v) with
    | none => simp [checkMatch, StringMatch.Empty, he, hp, hr, hm]
    | some b => cases b <;> simp [checkMatch, StringMatch.Empty, he, hp, hr, hm]
  refine ⟨hcm, fun hnone => by rw [hcm, hnone]; rfl, ?_⟩
  intro sem hX
  constructor
  · intro M hM
    have hsearch : (checkMatch X sm v ignoreCase).1 =
        searchMatch M (if ignoreCase then X.ToLower v else v) := by
      rw [hcm, hX sm.Regex, hM]
      cases hsm : searchMatch M (if ignoreCase then X.ToLower v else v) <;> simp [hsm]
    constructor
    · rw [hsearch]
      exact searchMatch_iff M _
    · intro hw
      rw [hsearch, searchMatch_iff]
      exact ⟨[], _, [], by simp, hw⟩
  · intro hnone
    rw [hcm, hX sm.Regex, hnone]
    rfl

/-- Witness of C20 with `regexp.MatchString` on the patterns made of an
optional `^`, characters that are not metacharacters and an optional `$`: the
value `api` is matched by the regex `^api$`, being in its language as a whole. -/
theorem C20_regex_searches_value_witness :
    (checkMatch anchoredLiteralLib { Regex := "^api$" } "api" false).1 = true :=
  (((C20_regex_searches_value anchoredLiteralLib { Regex := "^api$" } "api" false
      rfl rfl (by decide)).2.2 anchoredLiteral (fun _ _ => rfl)).1
    (fun u w t => w == "api".data && (!true || u.isEmpty) && (!true || t.isEmpty))
    rfl).2 (by decide)

end Lhotse
